import Mathlib

/-!
Verification development for the Google Maps V1-to-V2 style converter
(`gelbh/google-maps-converter`).

The JavaScript source is shallowly embedded below:

* JS values reaching the converter are modelled by `JSPrim` (primitives) plus
  dedicated shapes for rules, styler operations and rule lists; a field that is
  absent is `Option.none`, a field present with the value `undefined` is
  `some JSPrim.undefined` (the two behave identically in every check the
  converter performs, but differ under object-spread merging, which is why both
  are represented).
* JS numbers are modelled by a kernel-reducible exact rational type `Q`; `Math.round` is `jsRound`
  (round half towards positive infinity, as in JS), `parseFloat` is
  `jsParseFloat` (returning `none` for `NaN`).
* `Math.pow`, used only by the gamma adjustment, is transcendental and is
  threaded through the embedding as an explicit function parameter `pow`;
  every theorem quantifies over it and no concrete evaluation below ever
  reaches it.
* `JSON.parse` is a host primitive and is likewise a parameter
  (`parse : String → Option JSONValue`, `none` modelling a parse exception).
* Statements that JS would raise (`TypeError` on property access of
  `null`/`undefined`, or calling a missing `.some` method) are modelled with
  `Except JsError`.
-/

set_option maxHeartbeats 1000000

namespace GMC

/-- Euclidean algorithm on a structural fuel counter (the second argument
strictly decreases, so `b + 1` steps always suffice); structural recursion
keeps it kernel-reducible, which `Nat.gcd` is not. -/
def gcdFuel : ℕ → ℕ → ℕ → ℕ
  | 0, a, _ => a
  | fuel + 1, a, b => if b = 0 then a else gcdFuel fuel b (a % b)

/-- Greatest common divisor via `gcdFuel`. -/
def natGcd (a b : ℕ) : ℕ := gcdFuel (b + 1) a b

/-- Exact rational numbers in canonical form (reduced, positive
denominator), modelling JS numbers.  JS doubles are approximated by exact
rationals; every operation the converter performs is exact on its actual
inputs.  All operations are kernel-reducible. -/
structure Q where
  num : ℤ
  den : ℕ
deriving DecidableEq, Repr

namespace Q

/-- Build a canonical rational from a fraction (denominator `0` yields `0`;
the converter never divides by zero on reachable paths). -/
def mk' (n d : ℤ) : Q :=
  if d = 0 then ⟨0, 1⟩
  else
    let s : ℤ := if d < 0 then -1 else 1
    let n₁ := s * n
    let d₁ := (s * d).toNat
    let g := natGcd n₁.natAbs d₁
    ⟨n₁ / (g : ℤ), d₁ / g⟩

/-- Embed an integer. -/
def ofInt (n : ℤ) : Q := ⟨n, 1⟩

/-- Embed a natural number. -/
def ofNat (n : ℕ) : Q := ⟨(n : ℤ), 1⟩

instance (n : ℕ) : OfNat Q n := ⟨ofNat n⟩

/-- Addition. -/
def add (a b : Q) : Q :=
  mk' (a.num * (b.den : ℤ) + b.num * (a.den : ℤ)) ((a.den : ℤ) * (b.den : ℤ))

/-- Negation (canonical form is preserved). -/
def neg (a : Q) : Q := ⟨-a.num, a.den⟩

/-- Subtraction. -/
def sub (a b : Q) : Q := add a (neg b)

/-- Multiplication. -/
def mul (a b : Q) : Q := mk' (a.num * b.num) ((a.den : ℤ) * (b.den : ℤ))

/-- Division (division by zero yields `0`; unreachable in the converter). -/
def div (a b : Q) : Q := mk' (a.num * (b.den : ℤ)) ((a.den : ℤ) * b.num)

/-- Order (valid because denominators are positive). -/
def lt (a b : Q) : Bool := a.num * (b.den : ℤ) < b.num * (a.den : ℤ)

/-- Non-strict order. -/
def le (a b : Q) : Bool := a.num * (b.den : ℤ) ≤ b.num * (a.den : ℤ)

/-- Floor. -/
def floor (a : Q) : ℤ := Int.fdiv a.num (a.den : ℤ)

instance : Add Q := ⟨add⟩
instance : Neg Q := ⟨neg⟩
instance : Sub Q := ⟨sub⟩
instance : Mul Q := ⟨mul⟩
instance : Div Q := ⟨div⟩
instance : LT Q := ⟨fun a b => lt a b = true⟩
instance : LE Q := ⟨fun a b => le a b = true⟩
instance (a b : Q) : Decidable (a < b) :=
  inferInstanceAs (Decidable (lt a b = true))
instance (a b : Q) : Decidable (a ≤ b) :=
  inferInstanceAs (Decidable (le a b = true))
instance : Max Q := ⟨fun a b => if le a b then b else a⟩
instance : Min Q := ⟨fun a b => if le b a then b else a⟩

end Q

/-- JS primitive values that can appear in the styler/rule fields the
converter inspects.  Objects/arrays in positions where the code only ever
checks `typeof`/truthiness behave like `bool true` and need no own case. -/
inductive JSPrim where
  | null
  | undefined
  | bool (b : Bool)
  | num (q : Q)
  | str (s : String)
deriving DecidableEq, Repr

namespace JSPrim

/-- `x === null || x === undefined`. -/
def isNullish : JSPrim → Bool
  | .null => true
  | .undefined => true
  | _ => false

/-- JS truthiness of a primitive. -/
def truthy : JSPrim → Bool
  | .null => false
  | .undefined => false
  | .bool b => b
  | .num q => decide (q ≠ 0)
  | .str s => decide (s ≠ "")

/-- `typeof x === "string"`. -/
def isString : JSPrim → Bool
  | .str _ => true
  | _ => false

end JSPrim

/-- JS `Math.round`: round half towards positive infinity. -/
def jsRound (q : Q) : ℤ := Q.floor (q + Q.mk' 1 2)

/-- Splitting on a single character (JS `split(".")`), kernel-reducible. -/
def splitCharAux (c : Char) : List Char → List Char → List String
  | [], acc => [String.mk acc.reverse]
  | x :: xs, acc =>
    if x = c then String.mk acc.reverse :: splitCharAux c xs []
    else splitCharAux c xs (x :: acc)

/-- JS `String.prototype.split` with a one-character separator. -/
def jsSplitChar (s : String) (c : Char) : List String := splitCharAux c s.data []

/-- JS whitespace for `trim` (the ASCII subset). -/
def isJsSpace (c : Char) : Bool :=
  c = ' ' ∨ c = '\t' ∨ c = '\n' ∨ c = '\r' ∨ c = '\x0b' ∨ c = '\x0c'

/-- JS `String.prototype.trim`, on the character list. -/
def jsTrim (s : String) : String :=
  String.mk (((s.data.dropWhile isJsSpace).reverse.dropWhile isJsSpace).reverse)

/-- Lower-case a string character-wise (JS `toLowerCase` on the ASCII
subset the converter manipulates). -/
def jsToLower (s : String) : String := String.mk (s.data.map Char.toLower)

/-- JS `String.prototype.startsWith`, on the character list (so that the
prefix lemmas of `List` apply). -/
def jsStartsWith (s pre : String) : Bool := pre.data.isPrefixOf s.data

/-- JS `String.prototype.endsWith`. -/
def jsEndsWith (s suf : String) : Bool := suf.data.isSuffixOf s.data

/-- JS `String.prototype.substring(n)` (drop the first `n` characters). -/
def jsDropChars (s : String) (n : ℕ) : String := String.mk (s.data.drop n)

/-- JS `String.prototype.slice(0, -n)` (drop the last `n` characters). -/
def jsDropRight (s : String) (n : ℕ) : String :=
  String.mk (s.data.take (s.data.length - n))

/-- JS `String.prototype.length` (the embedded strings are ASCII). -/
def jsLength (s : String) : ℕ := s.data.length

/-- One decimal digit. -/
def digitVal? (c : Char) : Option ℕ :=
  if c.isDigit then some (c.toNat - 48) else none

/-- Parse a maximal run of decimal digits, returning value, digit count and
the rest of the input. -/
def parseDigits : List Char → ℕ → ℕ → ℕ × ℕ × List Char
  | [], acc, n => (acc, n, [])
  | c :: cs, acc, n =>
    match digitVal? c with
    | some d => parseDigits cs (acc * 10 + d) (n + 1)
    | none => (acc, n, c :: cs)

/-- Optional sign, returning the sign factor and the rest. -/
def parseSign : List Char → ℤ × List Char
  | '-' :: cs => (-1, cs)
  | '+' :: cs => (1, cs)
  | cs => (1, cs)

/-- Parse an optional exponent part (`e`/`E`, sign, digits); as in JS
`parseFloat`, a malformed exponent is ignored. -/
def parseExponent : List Char → ℤ
  | e :: cs =>
    if e = 'e' ∨ e = 'E' then
      let (sgn, cs₁) := parseSign cs
      let (v, n, _) := parseDigits cs₁ 0 0
      if n = 0 then 0 else sgn * v
    else 0
  | [] => 0

/-- JS `parseFloat` on a string: leading whitespace, optional sign, decimal
mantissa with optional fraction, optional exponent; `none` models `NaN`.
(The `Infinity` literal, which real `parseFloat` also accepts, is not
modelled; no style input uses it.) -/
def parseFloatString (s : String) : Option Q :=
  let cs := (jsTrim s).data
  let (sgn, cs₁) := parseSign cs
  let (ip, ipn, cs₂) := parseDigits cs₁ 0 0
  let (fp, fpn, cs₃) :=
    match cs₂ with
    | '.' :: rest => parseDigits rest 0 0
    | _ => (0, 0, cs₂)
  if ipn = 0 ∧ fpn = 0 then none
  else
    let ex : ℤ := parseExponent cs₃
    let mant : Q := Q.mk' (sgn * ((ip : ℤ) * (10 : ℤ) ^ fpn + (fp : ℤ)))
      ((10 : ℤ) ^ fpn)
    some (if 0 ≤ ex then mant * Q.ofNat (10 ^ ex.toNat)
      else mant / Q.ofNat (10 ^ (-ex).toNat))

/-- JS `parseFloat` applied to an arbitrary primitive (`none` = `NaN`).
Non-string non-number primitives stringify to words that never parse. -/
def jsParseFloat : JSPrim → Option Q
  | .num q => some q
  | .str s => parseFloatString s
  | _ => none

/-! ### Color utilities — `src/utils/color-utils.js` -/

/-- Is `c` a lowercase hex digit (`[0-9a-f]`)? -/
def isHexDigit (c : Char) : Bool := c.isDigit ∨ ('a' ≤ c ∧ c ≤ 'f')

/-- Numeric value of one lowercase hex digit. -/
def hexVal (c : Char) : ℕ :=
  if c.isDigit then c.toNat - 48 else c.toNat - 87

/-- `parseInt(s, 16)` on a valid lowercase hex string. -/
def hexToNat (cs : List Char) : ℕ := cs.foldl (fun a c => a * 16 + hexVal c) 0

/-- `normalizeHex` — trims, lower-cases, strips a leading `#`, doubles
3-digit forms, and yields `#000000` for anything that is not a string or
fails the `^[0-9a-f]{6}$` check. -/
def normalizeHex (hex : JSPrim) : String :=
  if ¬ hex.truthy ∨ ¬ hex.isString then "#000000"
  else
    match hex with
    | .str s =>
      let n₀ := jsToLower (jsTrim s)
      let n₁ := if jsStartsWith n₀ "#" then jsDropChars n₀ 1 else n₀
      let n₂ :=
        if jsLength n₁ = 3 then String.mk (n₁.data.flatMap (fun c => [c, c]))
        else n₁
      if jsLength n₂ = 6 ∧ n₂.data.all isHexDigit then "#" ++ n₂ else "#000000"
    | _ => "#000000"

/-- HSL triple as returned by `hexToHsl` (rounded integer components). -/
structure Hsl where
  h : Q
  s : Q
  l : Q
deriving DecidableEq, Repr

/-- Red/green/blue channels of an already-normalized `#rrggbb` string,
each scaled to `[0,1]`. -/
def hexChannels (normalized : String) : Q × Q × Q :=
  let cs := normalized.data
  let r : Q := Q.ofNat (hexToNat (cs.drop 1 |>.take 2)) / 255
  let g : Q := Q.ofNat (hexToNat (cs.drop 3 |>.take 2)) / 255
  let b : Q := Q.ofNat (hexToNat (cs.drop 5 |>.take 2)) / 255
  (r, g, b)

/-- `hexToHsl` — standard RGB→HSL with rounding, achromatic when
`max = min`. -/
def hexToHsl (hex : JSPrim) : Hsl :=
  let (r, g, b) := hexChannels (normalizeHex hex)
  let mx := max r (max g b)
  let mn := min r (min g b)
  let l : Q := (mx + mn) / 2
  if mx = mn then
    { h := 0, s := 0, l := Q.ofInt (jsRound (l * 100)) }
  else
    let d := mx - mn
    let s : Q := if Q.mk' 1 2 < l then d / (2 - mx - mn) else d / (mx + mn)
    let h : Q :=
      if mx = r then ((g - b) / d + (if g < b then 6 else 0)) / 6
      else if mx = g then ((b - r) / d + 2) / 6
      else ((r - g) / d + 4) / 6
    { h := Q.ofInt (jsRound (h * 360)), s := Q.ofInt (jsRound (s * 100)),
      l := Q.ofInt (jsRound (l * 100)) }

/-- `hue2rgb` helper of `hslToHex`. -/
def hue2rgb (p q t₀ : Q) : Q :=
  let t₁ := if t₀ < 0 then t₀ + 1 else t₀
  let t := if t₁ > 1 then t₁ - 1 else t₁
  if t < 1 / 6 then p + (q - p) * 6 * t
  else if t < 1 / 2 then q
  else if t < 2 / 3 then p + (q - p) * (2 / 3 - t) * 6
  else p

/-- One byte to two lowercase hex digits (JS `toString(16)` plus the
single-digit pad). -/
def toHexByte (z : ℤ) : String :=
  let n := z.toNat
  let digits := (Nat.toDigits 16 n).asString
  if digits.length = 1 then "0" ++ digits else digits

/-- `hslToHex` — standard HSL→RGB with JS rounding of each channel. -/
def hslToHex (h₀ s₀ l₀ : Q) : String :=
  let h := h₀ / 360
  let s := s₀ / 100
  let l := l₀ / 100
  let (r, g, b) :=
    if s = 0 then (l, l, l)
    else
      let q := if l < 1 / 2 then l * (1 + s) else l + s - l * s
      let p := 2 * l - q
      (hue2rgb p q (h + 1 / 3), hue2rgb p q h, hue2rgb p q (h - 1 / 3))
  "#" ++ toHexByte (jsRound (r * 255)) ++ toHexByte (jsRound (g * 255)) ++
    toHexByte (jsRound (b * 255))

/-- `applyHslComponent` — add a numeric adjustment to a component and clamp
to `[0,100]`; missing or non-numeric adjustments leave the value alone. -/
def applyHslComponent (value : Q) (adjustment : Option JSPrim) : Q :=
  match adjustment with
  | none => value
  | some a =>
    if a.isNullish then value
    else
      match jsParseFloat a with
      | none => value
      | some adjust => max 0 (min 100 (value + adjust))

/-- `applyHslAdjustments` — normalize, convert to HSL, adjust saturation and
lightness, convert back. -/
def applyHslAdjustments (baseColor : JSPrim)
    (lightness saturation : Option JSPrim) : String :=
  let normalized := normalizeHex baseColor
  let hsl := hexToHsl (.str normalized)
  let s := applyHslComponent hsl.s saturation
  let l := applyHslComponent hsl.l lightness
  hslToHex hsl.h s l

/-- `applyGamma` — per-channel `(c/255)^(1/gamma) * 255`, clamped and
rounded; missing/non-numeric/non-positive gamma returns the input
unchanged.  `pow` is the model of JS `Math.pow`. -/
def applyGamma (pow : Q → Q → Q) (baseColor : String)
    (gamma : Option JSPrim) : String :=
  match gamma with
  | none => baseColor
  | some g =>
    if g.isNullish then baseColor
    else
      match jsParseFloat g with
      | none => baseColor
      | some gammaValue =>
        if gammaValue ≤ 0 then baseColor
        else
          let normalized := normalizeHex (.str baseColor)
          let cs := normalized.data
          let chan := fun (lo : ℕ) =>
            Q.ofNat (hexToNat (cs.drop lo |>.take 2))
          let gc := 1 / gammaValue
          let app := fun (c : Q) =>
            jsRound (max 0 (min 255 (pow (c / 255) gc * 255)))
          "#" ++ toHexByte (app (chan 1)) ++ toHexByte (app (chan 3)) ++
            toHexByte (app (chan 5))

/-- External saturation/lightness record accumulated from category rules
(`{saturation?, lightness?}` with numeric fields). -/
structure HslAdj where
  saturation : Option Q
  lightness : Option Q
deriving DecidableEq, Repr

/-- A single styler operation (`{color?, visibility?, lightness?,
saturation?, weight?, gamma?}`); `none` = key absent, `some .undefined` =
key present holding `undefined`. -/
structure Styler where
  color : Option JSPrim := none
  visibility : Option JSPrim := none
  lightness : Option JSPrim := none
  saturation : Option JSPrim := none
  weight : Option JSPrim := none
  gamma : Option JSPrim := none
deriving DecidableEq, Repr

/-- `x !== undefined` for an optional field (a present `null` counts). -/
def fieldDefined : Option JSPrim → Bool
  | none => false
  | some .undefined => false
  | some _ => true

/-- `x !== undefined && x !== null` for an optional field. -/
def fieldNonNullish : Option JSPrim → Bool
  | none => false
  | some p => ¬ p.isNullish

/-- The value of an optional field as seen by JS (`undefined` when the key
is absent). -/
def fieldValue : Option JSPrim → JSPrim
  | none => .undefined
  | some p => p

/-- `extractColor` — returns the operation's explicit color, normalized,
with the operation's own HSL adjustments applied, then the external
adjustments, except that pure black/white base colors are shielded from
external adjustments when the operation itself has no HSL adjustments;
`null` when there is no explicit color. -/
def extractColor (styler : Styler) (externalAdjustments : Option HslAdj) :
    Option String :=
  let hasExplicitColor := fieldNonNullish styler.color
  let hasHslAdjustments :=
    fieldDefined styler.lightness || fieldDefined styler.saturation
  let hasExternalAdjustments :=
    match externalAdjustments with
    | none => false
    | some a => a.saturation.isSome || a.lightness.isSome
  if !hasExplicitColor && !hasHslAdjustments && !hasExternalAdjustments then
    none
  else if !hasExplicitColor && (hasHslAdjustments || hasExternalAdjustments) then
    none
  else
    let color₀ := normalizeHex (fieldValue styler.color)
    let isPureBlackOrWhite : Bool := color₀ = "#000000" ∨ color₀ = "#ffffff"
    let color₁ :=
      if hasHslAdjustments then
        applyHslAdjustments (.str color₀) styler.lightness styler.saturation
      else color₀
    let color₂ :=
      if hasExternalAdjustments && (!isPureBlackOrWhite || hasHslAdjustments) then
        match externalAdjustments with
        | some a =>
          applyHslAdjustments (.str color₁) (a.lightness.map .num)
            (a.saturation.map .num)
        | none => color₁
      else color₁
    some color₂

/-! ### Mapping tables — `src/core/mapping.js` -/

/-- `featureTypeMap` — legacy feature-type token to V2 feature id.  (The
lookup code tolerates array values; every entry of the current table is a
single id.) -/
def featureTypeMap : List (String × String) := [
  ("poi", "pointOfInterest"),
  ("poi.attraction", "pointOfInterest.entertainment.touristAttraction"),
  ("poi.park", "pointOfInterest.recreation.park"),
  ("poi.sports_complex", "pointOfInterest.recreation.sportsComplex"),
  ("poi.place_of_worship", "pointOfInterest.other.placeOfWorship"),
  ("poi.school", "pointOfInterest.other.school"),
  ("poi.government", "pointOfInterest.other.government"),
  ("poi.medical", "pointOfInterest.emergency.hospital"),
  ("administrative", "political"),
  ("administrative.country", "political.countryOrRegion"),
  ("administrative.locality", "political.city"),
  ("administrative.neighborhood", "political.neighborhood"),
  ("administrative.land_parcel", "political.landParcel"),
  ("administrative.province", "political.stateOrProvince"),
  ("road", "infrastructure.roadNetwork.road"),
  ("road.highway", "infrastructure.roadNetwork.road.highway"),
  ("road.arterial", "infrastructure.roadNetwork.road.arterial"),
  ("road.local", "infrastructure.roadNetwork.road.local"),
  ("landscape", "natural.land"),
  ("landscape.man_made", "infrastructure.building"),
  ("landscape.natural.landcover", "natural.land.landCover"),
  ("water", "natural.water"),
  ("transit", "infrastructure.transitStation"),
  ("transit.station", "infrastructure.transitStation"),
  ("transit.station.airport", "pointOfInterest.transit.airport"),
  ("transit.station.bus", "infrastructure.transitStation.busStation"),
  ("transit.station.rail", "infrastructure.transitStation.railStation")]

/-- `elementTypeMap` — legacy element-type token to V2 property path. -/
def elementTypeMap : List (String × String) := [
  ("geometry.fill", "geometry.fillColor"),
  ("geometry.stroke", "geometry.strokeColor"),
  ("geometry", "geometry.color"),
  ("labels.text.fill", "label.textFillColor"),
  ("labels.text.stroke", "label.textStrokeColor"),
  ("labels.icon", "label.pinFillColor"),
  ("labels", "label.visible"),
  ("labels.text", "label.visible")]

/-- `visibilityMap`. -/
def visibilityMap : List (String × Bool) :=
  [("on", true), ("off", false), ("simplified", true)]

/-- `getV2Id` — `null` for falsy/`"all"`/unmapped feature types. -/
def getV2Id (featureType : JSPrim) : Option String :=
  if !featureType.truthy then none
  else
    match featureType with
    | .str s => if s = "all" then none else featureTypeMap.lookup s
    | _ => none

/-- `getV2PropertyPath` — `null` for falsy/`"all"`/unmapped element types.
(The refactored converter passes a second feature-id argument, which this
version of the mapping module ignores.) -/
def getV2PropertyPath (elementType : JSPrim) : Option String :=
  if !elementType.truthy then none
  else
    match elementType with
    | .str s => if s = "all" then none else elementTypeMap.lookup s
    | _ => none

/-- `getV2Visibility` — case-insensitive `on`/`off`/`simplified`, otherwise
`null`. -/
def getV2Visibility (visibility : JSPrim) : Option Bool :=
  if visibility.isNullish then none
  else
    match visibility with
    | .str s => visibilityMap.lookup (jsToLower s)
    | _ => none

/-- `getAllV2Ids` — every value of `featureTypeMap`, in table order. -/
def getAllV2Ids : List String := featureTypeMap.map (·.2)

/-! ### Capability tables — `src/core/feature-properties.js`
(current version: frozen tables, shared `isValidProperty` /
`supportsProperties` helpers) -/

/-- Properties shared by the point-of-interest label entries. -/
def poiLabelProps : List String :=
  ["visible", "pinFillColor", "textFillColor", "textFillOpacity",
   "textStrokeColor", "textStrokeOpacity"]

/-- Label property list without `pinFillColor`. -/
def textLabelProps : List String :=
  ["visible", "textFillColor", "textFillOpacity", "textStrokeColor",
   "textStrokeOpacity"]

/-- Geometry fill property list. -/
def fillGeomProps : List String := ["visible", "fillColor", "fillOpacity"]

/-- Geometry fill+stroke property list. -/
def fullGeomProps : List String :=
  ["visible", "fillColor", "fillOpacity", "strokeColor", "strokeOpacity",
   "strokeWeight"]

/-- `geometryProperties` — valid geometry properties per feature id; an
empty list marks a feature explicitly without geometry. -/
def geometryProperties : List (String × List String) := [
  ("pointOfInterest", fillGeomProps),
  ("pointOfInterest.emergency", fillGeomProps),
  ("pointOfInterest.entertainment", fillGeomProps),
  ("pointOfInterest.foodAndDrink", fillGeomProps),
  ("pointOfInterest.landmark", fillGeomProps),
  ("pointOfInterest.lodging", fillGeomProps),
  ("pointOfInterest.recreation", fillGeomProps),
  ("pointOfInterest.retail", fillGeomProps),
  ("pointOfInterest.service", fillGeomProps),
  ("pointOfInterest.transit", fillGeomProps),
  ("pointOfInterest.other", fillGeomProps),
  ("pointOfInterest.other.placeOfWorship", []),
  ("pointOfInterest.other.school", []),
  ("pointOfInterest.other.government", []),
  ("pointOfInterest.entertainment.touristAttraction", []),
  ("political", ["visible", "fillColor"]),
  ("political.countryOrRegion", []),
  ("political.city", []),
  ("political.neighborhood", []),
  ("political.border", ["visible", "color"]),
  ("political.reservation", ["visible", "fillColor"]),
  ("political.stateOrProvince", ["visible", "fillColor"]),
  ("political.sublocality", ["visible", "fillColor"]),
  ("political.landParcel",
    ["visible", "strokeColor", "strokeOpacity", "strokeWeight"]),
  ("natural.continent", fillGeomProps),
  ("natural.archipelago", fillGeomProps),
  ("natural.island", fillGeomProps),
  ("natural.land", fillGeomProps),
  ("natural.land.landCover", fillGeomProps),
  ("natural.water", fillGeomProps),
  ("natural.base", fillGeomProps),
  ("infrastructure.roadNetwork.road", fullGeomProps),
  ("infrastructure.roadNetwork.road.highway", fullGeomProps),
  ("infrastructure.roadNetwork.road.arterial", fullGeomProps),
  ("infrastructure.roadNetwork.road.local", fullGeomProps),
  ("infrastructure", fullGeomProps),
  ("infrastructure.building", fullGeomProps),
  ("infrastructure.transitStation", []),
  ("infrastructure.transitStation.busStation", []),
  ("infrastructure.transitStation.railStation", [])]

/-- `labelProperties` — valid label properties per feature id; an empty
list marks a feature explicitly without labels. -/
def labelProperties : List (String × List String) := [
  ("pointOfInterest", poiLabelProps),
  ("pointOfInterest.emergency", poiLabelProps),
  ("pointOfInterest.entertainment", poiLabelProps),
  ("pointOfInterest.entertainment.touristAttraction", poiLabelProps),
  ("pointOfInterest.foodAndDrink", poiLabelProps),
  ("pointOfInterest.landmark", poiLabelProps),
  ("pointOfInterest.lodging", poiLabelProps),
  ("pointOfInterest.recreation", poiLabelProps),
  ("pointOfInterest.retail", poiLabelProps),
  ("pointOfInterest.service", poiLabelProps),
  ("pointOfInterest.transit", poiLabelProps),
  ("pointOfInterest.other", poiLabelProps),
  ("pointOfInterest.other.placeOfWorship", poiLabelProps),
  ("pointOfInterest.other.school", poiLabelProps),
  ("pointOfInterest.other.government", poiLabelProps),
  ("political", poiLabelProps),
  ("political.countryOrRegion", textLabelProps),
  ("political.stateOrProvince", textLabelProps),
  ("political.city", poiLabelProps),
  ("political.sublocality", poiLabelProps),
  ("political.neighborhood", textLabelProps),
  ("political.landParcel", []),
  ("infrastructure.roadNetwork.road", textLabelProps),
  ("infrastructure.roadNetwork.road.highway", textLabelProps),
  ("infrastructure.roadNetwork.road.arterial", textLabelProps),
  ("infrastructure.roadNetwork.road.local", textLabelProps),
  ("infrastructure", poiLabelProps),
  ("infrastructure.building", textLabelProps),
  ("natural.water", textLabelProps),
  ("infrastructure.transitStation", poiLabelProps),
  ("infrastructure.transitStation.busStation", poiLabelProps),
  ("infrastructure.transitStation.railStation", poiLabelProps)]

/-- `getParentFeatureIds` — all dot-prefixes of a feature id, most specific
first. -/
def getParentFeatureIds (featureId : String) : List String :=
  let parts := jsSplitChar featureId '.'
  (List.range (parts.length - 1)).reverse.map fun i =>
    String.intercalate "." (parts.take (i + 1))

/-- `isValidProperty` — checks the feature id's own entry and, when the
property is not found there, falls back to the entries of its ancestors.
(Note: the fallback runs even when the id has its own entry; an explicitly
empty entry therefore does not stop the ancestor walk.) -/
def isValidProperty (propertiesMap : List (String × List String))
    (featureId property : String) : Bool :=
  if ((propertiesMap.lookup featureId).map (·.contains property)).getD false then
    true
  else
    (getParentFeatureIds featureId).any fun parentId =>
      ((propertiesMap.lookup parentId).map (·.contains property)).getD false

/-- `isValidGeometryProperty`. -/
def isValidGeometryProperty (featureId property : String) : Bool :=
  isValidProperty geometryProperties featureId property

/-- `isValidLabelProperty`. -/
def isValidLabelProperty (featureId property : String) : Bool :=
  isValidProperty labelProperties featureId property

/-- `supportsProperties` — an own entry decides (non-empty list); otherwise
ancestors with entries are consulted via `some`. -/
def supportsProperties (propertiesMap : List (String × List String))
    (featureId : String) : Bool :=
  match propertiesMap.lookup featureId with
  | some props => props ≠ []
  | none =>
    (getParentFeatureIds featureId).any fun parentId =>
      match propertiesMap.lookup parentId with
      | some props => props ≠ []
      | none => false

/-- `supportsLabel`. -/
def supportsLabel (featureId : String) : Bool :=
  supportsProperties labelProperties featureId

/-- `supportsGeometry`. -/
def supportsGeometry (featureId : String) : Bool :=
  supportsProperties geometryProperties featureId

/-- `mapGeometryColor` — resolves the generic `geometry.color` path to the
feature's color property. -/
def mapGeometryColor (featureId : String) : String :=
  if isValidGeometryProperty featureId "color" then "color"
  else if isValidGeometryProperty featureId "fillColor" then "fillColor"
  else "fillColor"

/-! ### Shared constants — `src/core/constants.js` -/

/-- `ICON_SHIELD_PATTERNS`. -/
def ICON_SHIELD_PATTERNS : List String := [
  "infrastructure.roadNetwork.roadShield",
  "infrastructure.roadNetwork.roadSign",
  "pointOfInterest.recreation.*",
  "pointOfInterest.entertainment.*",
  "pointOfInterest.emergency.*",
  "infrastructure.transitStation.*",
  "pointOfInterest.retail.*",
  "pointOfInterest.service.*",
  "pointOfInterest.foodAndDrink.*",
  "pointOfInterest.transit.*",
  "pointOfInterest.other.school"]

/-- `PURE_BLACK`. -/
def PURE_BLACK : String := "#000000"

/-- `PURE_WHITE`. -/
def PURE_WHITE : String := "#ffffff"

/-- `STROKE_WEIGHT_STEP`. -/
def STROKE_WEIGHT_STEP : Q := 1 / 8

/-- `STROKE_WEIGHT_MAX`. -/
def STROKE_WEIGHT_MAX : Q := 8

/-- `LIGHTNESS_THRESHOLD`. -/
def LIGHTNESS_THRESHOLD : Q := 50

/-! ### Feature id utilities — `src/core/feature-id-utils.js` -/

/-- `getChildFeatureIds` — the parent itself followed by every known id
with the parent as a dot-prefix. -/
def getChildFeatureIds (parentId : String) : List String :=
  parentId :: getAllV2Ids.filter (fun fid => jsStartsWith fid (parentId ++ "."))

/-- JS `Set.add` on an insertion-ordered list model. -/
def addIfAbsent (l : List String) (x : String) : List String :=
  if x ∈ l then l else l ++ [x]

/-- `expandTargetIds` — resolve a legacy feature type and expand category
ids to include all their descendants, deduplicated; falsy/`"all"` expands
to all known ids. -/
def expandTargetIds (featureType : JSPrim) : List String :=
  if !featureType.truthy || featureType == .str "all" then getAllV2Ids
  else
    match getV2Id featureType with
    | none => []
    | some mappedId =>
      [mappedId].foldl
        (fun acc id =>
          let acc₁ := addIfAbsent acc id
          if getAllV2Ids.any (fun fid => jsStartsWith fid (id ++ ".")) then
            (getChildFeatureIds id).foldl addIfAbsent acc₁
          else acc₁)
        []

/-- `isIconShieldFeature` — id matches one of the icon/shield patterns
(`.*` patterns match the prefix itself and everything below it). -/
def isIconShieldFeature (id : String) : Bool :=
  ICON_SHIELD_PATTERNS.any fun pattern =>
    if jsEndsWith pattern ".*" then
      let p := jsDropRight pattern 2
      id = p ∨ jsStartsWith id (p ++ ".")
    else id = pattern

/-! ### Output style objects and conversion state -/

/-- A V2 geometry section; `none` fields are absent keys. -/
structure GeometryObj where
  visible : Option Bool := none
  fillColor : Option String := none
  strokeColor : Option String := none
  color : Option String := none
  strokeWeight : Option Q := none
deriving DecidableEq, Repr

/-- A V2 label section; `none` fields are absent keys. -/
structure LabelObj where
  visible : Option Bool := none
  textFillColor : Option String := none
  textStrokeColor : Option String := none
  pinFillColor : Option String := none
deriving DecidableEq, Repr

/-- A V2 style accumulator entry (`{id, geometry?, label?}`);
`some {}` models a present-but-empty section object. -/
structure V2Style where
  id : String
  geometry : Option GeometryObj := none
  label : Option LabelObj := none
deriving DecidableEq, Repr

/-- `Object.keys(geometry).length > 0`. -/
def GeometryObj.hasKeys (g : GeometryObj) : Bool :=
  g.visible.isSome || g.fillColor.isSome || g.strokeColor.isSome ||
    g.color.isSome || g.strokeWeight.isSome

/-- `Object.keys(label).length > 0`. -/
def LabelObj.hasKeys (l : LabelObj) : Bool :=
  l.visible.isSome || l.textFillColor.isSome || l.textStrokeColor.isSome ||
    l.pinFillColor.isSome

/-- Write a geometry color property selected by name (`geometry[prop] = c`;
the call sites only ever pass `fillColor`, `strokeColor` or `color`). -/
def GeometryObj.setColorProp (g : GeometryObj) (prop c : String) : GeometryObj :=
  if prop = "fillColor" then { g with fillColor := some c }
  else if prop = "strokeColor" then { g with strokeColor := some c }
  else if prop = "color" then { g with color := some c }
  else g

/-- Read a geometry color property by name. -/
def GeometryObj.getColorProp (g : GeometryObj) (prop : String) : Option String :=
  if prop = "fillColor" then g.fillColor
  else if prop = "strokeColor" then g.strokeColor
  else if prop = "color" then g.color
  else none

/-- Write a label color property selected by name. -/
def LabelObj.setColorProp (l : LabelObj) (prop c : String) : LabelObj :=
  if prop = "textFillColor" then { l with textFillColor := some c }
  else if prop = "textStrokeColor" then { l with textStrokeColor := some c }
  else if prop = "pinFillColor" then { l with pinFillColor := some c }
  else l

/-- Read a label color property by name. -/
def LabelObj.getColorProp (l : LabelObj) (prop : String) : Option String :=
  if prop = "textFillColor" then l.textFillColor
  else if prop = "textStrokeColor" then l.textStrokeColor
  else if prop = "pinFillColor" then l.pinFillColor
  else none

/-- `p?.startsWith(s)` treating non-strings as a non-match (only reachable
for validated string-or-nullish values). -/
def primStartsWith (p : JSPrim) (pre : String) : Bool :=
  match p with
  | .str s => jsStartsWith s pre
  | _ => false

/-- `ensureRequiredElements` (`feature-properties.js`) — creates the empty
section objects a feature's capabilities require. -/
def ensureRequiredElements (style : V2Style) (id : String)
    (elementType : JSPrim) : V2Style :=
  let hasGeometry := supportsGeometry id
  let hasLabel := supportsLabel id
  if !hasGeometry && hasLabel then
    { style with label := some (style.label.getD {}) }
  else if hasGeometry && !hasLabel then
    { style with geometry := some (style.geometry.getD {}) }
  else if hasGeometry && hasLabel then
    if !elementType.truthy || elementType == .str "all" then
      { style with geometry := some (style.geometry.getD {}),
                   label := some (style.label.getD {}) }
    else if primStartsWith elementType "geometry" then
      { style with geometry := some (style.geometry.getD {}) }
    else if primStartsWith elementType "labels" then
      { style with label := some (style.label.getD {}) }
    else style
  else style

/-- An element of a stylers array: a styler operation object or any
primitive value (`[null]`, `[5]`, … are legal JSON array contents). -/
inductive StylerVal where
  | obj (s : Styler)
  | prim (p : JSPrim)
deriving DecidableEq, Repr

/-- The `stylers` field of a rule: an array of styler elements or any
other JS value. -/
inductive StylersField where
  | prim (p : JSPrim)
  | arr (l : List StylerVal)
deriving DecidableEq, Repr

/-- A legacy rule object; destructured fields default to `undefined`. -/
structure V1Rule where
  featureType : JSPrim := .undefined
  elementType : JSPrim := .undefined
  stylers : StylersField := .prim .undefined
deriving DecidableEq, Repr

/-- An element of the input rule array: a rule object or a primitive. -/
inductive RuleVal where
  | obj (r : V1Rule)
  | prim (p : JSPrim)
deriving DecidableEq, Repr

/-- Runtime errors the conversion can raise. -/
inductive JsError where
  /-- `Invalid JSON input` — `JSON.parse` threw. -/
  | invalidJson
  /-- `V1 input must be an array of style rules`. -/
  | notArray
  /-- A `TypeError` escaping rule processing. -/
  | typeError
deriving DecidableEq, Repr

/-- `rule.elementType` — property access, `TypeError` on `null`/`undefined`
receivers. -/
def RuleVal.getElementType : RuleVal → Except JsError JSPrim
  | .obj r => .ok r.elementType
  | .prim p => if p.isNullish then .error .typeError else .ok .undefined

/-- `rule.featureType`. -/
def RuleVal.getFeatureType : RuleVal → Except JsError JSPrim
  | .obj r => .ok r.featureType
  | .prim p => if p.isNullish then .error .typeError else .ok .undefined

/-- `rule.stylers`. -/
def RuleVal.getStylers : RuleVal → Except JsError StylersField
  | .obj r => .ok r.stylers
  | .prim p => if p.isNullish then .error .typeError else .ok (.prim .undefined)

/-- `const {featureType, elementType, stylers} = v1Rule` — destructuring a
primitive yields `undefined` fields, throwing on `null`/`undefined`. -/
def RuleVal.destructure : RuleVal → Except JsError V1Rule
  | .obj r => .ok r
  | .prim p => if p.isNullish then .error .typeError else .ok {}

/-- Merge one styler over another (object spread: present keys of the
second override). -/
def Styler.mergeOver (a b : Styler) : Styler :=
  { color := b.color <|> a.color,
    visibility := b.visibility <|> a.visibility,
    lightness := b.lightness <|> a.lightness,
    saturation := b.saturation <|> a.saturation,
    weight := b.weight <|> a.weight,
    gamma := b.gamma <|> a.gamma }

/-- `stylers.reduce((acc, s) => ({...acc, ...s}), {})` (the monolithic
`Object.assign({}, ...stylers)` is the same operation): spreading a
primitive element contributes no styler key (`{...null}` and `{...5}` are
`{}`, and a string spread adds only index keys). -/
def mergeStylers (stylers : List StylerVal) : Styler :=
  stylers.foldl
    (fun acc sv =>
      match sv with
      | .obj s => Styler.mergeOver acc s
      | .prim _ => acc)
    {}

/-- JS `Map.set` on an insertion-ordered association list (replaces in
place, appends when absent). -/
def setAssoc {α : Type} (m : List (String × α)) (k : String) (v : α) :
    List (String × α) :=
  if (m.lookup k).isSome then
    m.map fun p => if p.1 = k then (k, v) else p
  else m ++ [(k, v)]

/-- The per-conversion accumulator state: the style map, the HSL-adjustment
tracker, the icon-suppression set and the visibility-precedence ledger. -/
structure ConvState where
  styles : List (String × V2Style) := []
  hsl : List (String × HslAdj) := []
  iconOff : List String := []
  vsrc : List (String × String) := []
deriving DecidableEq, Repr

/-! ### Style utilities — `src/core/style-utils.js` -/

/-- `convertWeight` — clamp to `[0, 8]` and round to the nearest `0.125`
step; `null` for missing/unparsable weights. -/
def convertWeight (weight : Option JSPrim) : Option Q :=
  if !fieldNonNullish weight then none
  else
    match jsParseFloat (fieldValue weight) with
    | none => none
    | some numWeight =>
      let clamped := max 0 (min STROKE_WEIGHT_MAX numWeight)
      some (Q.ofInt (jsRound (clamped / STROKE_WEIGHT_STEP)) * STROKE_WEIGHT_STEP)

/-- `validateRuleTypes` — both type fields must be strings or nullish. -/
def validateRuleTypes (featureType elementType : JSPrim) : Bool :=
  (featureType.isNullish || featureType.isString) &&
    (elementType.isNullish || elementType.isString)

/-- `getOrCreateStyle` — returns the (possibly extended) map and the
style object found or created for `id`. -/
def getOrCreateStyle (m : List (String × V2Style)) (id : String) :
    List (String × V2Style) × V2Style :=
  match m.lookup id with
  | some s => (m, s)
  | none => (m ++ [(id, { id := id })], { id := id })

/-- `cleanupStyle`, geometry part — keep only individually valid keys. -/
def cleanupGeometry (id : String) (g : GeometryObj) : GeometryObj :=
  { visible := if isValidGeometryProperty id "visible" then g.visible else none,
    fillColor :=
      if isValidGeometryProperty id "fillColor" then g.fillColor else none,
    strokeColor :=
      if isValidGeometryProperty id "strokeColor" then g.strokeColor else none,
    color := if isValidGeometryProperty id "color" then g.color else none,
    strokeWeight :=
      if isValidGeometryProperty id "strokeWeight" then g.strokeWeight
      else none }

/-- `cleanupStyle`, label part — keep only individually valid keys. -/
def cleanupLabel (id : String) (l : LabelObj) : LabelObj :=
  { visible := if isValidLabelProperty id "visible" then l.visible else none,
    textFillColor :=
      if isValidLabelProperty id "textFillColor" then l.textFillColor else none,
    textStrokeColor :=
      if isValidLabelProperty id "textStrokeColor" then l.textStrokeColor
      else none,
    pinFillColor :=
      if isValidLabelProperty id "pinFillColor" then l.pinFillColor else none }

/-- `cleanupStyle` (refactored converter) — keeps a section only when the
feature supports it and at least one of its keys survives the per-key
validity filter; drops the style when neither section survives. -/
def cleanupStyle (style : V2Style) : Option V2Style :=
  let hasGeometry := supportsGeometry style.id
  let hasLabel := supportsLabel style.id
  let cleanedGeometry : Option GeometryObj :=
    match style.geometry with
    | some g =>
      if hasGeometry ∧ g.hasKeys then
        let cg := cleanupGeometry style.id g
        if cg.hasKeys then some cg else none
      else none
    | none => none
  let cleanedLabel : Option LabelObj :=
    match style.label with
    | some l =>
      if hasLabel ∧ l.hasKeys then
        let cl := cleanupLabel style.id l
        if cl.hasKeys then some cl else none
      else none
    | none => none
  if cleanedGeometry.isNone ∧ cleanedLabel.isNone then none
  else some { id := style.id, geometry := cleanedGeometry, label := cleanedLabel }

/-- `setDefaultTransitVisibility` — force `pointOfInterest.transit` hidden
when it was created only through hierarchical expansion. -/
def setDefaultTransitVisibility (m : List (String × V2Style))
    (directlyMappedIds : List String) : List (String × V2Style) :=
  let transitPoiId := "pointOfInterest.transit"
  match m.lookup transitPoiId with
  | none => m
  | some transitStyle =>
    if transitPoiId ∈ directlyMappedIds then m
    else
      let s₁ :=
        match transitStyle.geometry with
        | some g =>
          { transitStyle with geometry := some { g with visible := some false } }
        | none =>
          if supportsGeometry transitPoiId then
            { transitStyle with
                geometry := some { GeometryObj.mk none none none none none with
                  visible := some false } }
          else transitStyle
      let s₂ :=
        match s₁.label with
        | some l => { s₁ with label := some { l with visible := some false } }
        | none =>
          if supportsLabel transitPoiId then
            { s₁ with label := some { LabelObj.mk none none none none with
                visible := some false } }
          else s₁
      setAssoc m transitPoiId s₂

/-- Accumulating loop of `trackDirectlyMappedIds`. -/
def trackDirectlyMappedIdsGo : List RuleVal → List String →
    Except JsError (List String)
  | [], acc => .ok acc
  | rule :: rest, acc =>
    match rule.getFeatureType with
    | .error e => .error e
    | .ok ft =>
      if !ft.truthy || ft == .str "all" then
        trackDirectlyMappedIdsGo rest acc
      else
        match getV2Id ft with
        | none => trackDirectlyMappedIdsGo rest acc
        | some id => trackDirectlyMappedIdsGo rest (addIfAbsent acc id)

/-- `trackDirectlyMappedIds` — ids directly named by a rule's feature type
(no hierarchical expansion). -/
def trackDirectlyMappedIds (rules : List RuleVal) :
    Except JsError (List String) :=
  trackDirectlyMappedIdsGo rules []

/-- The `.some((s) => s.visibility !== undefined)` callback scan: stops at
the first element with a defined `visibility`, throws a `TypeError` when
it reaches a nullish element first (`s.visibility` on `null`/`undefined`),
and reads `undefined` off any other primitive element. -/
def someVisibilityScan : List StylerVal → Except JsError Bool
  | [] => .ok false
  | .obj s :: rest =>
    if fieldDefined s.visibility then .ok true else someVisibilityScan rest
  | .prim p :: rest =>
    if p.isNullish then .error .typeError else someVisibilityScan rest

/-- `rule.stylers?.some((s) => s.visibility !== undefined)` — throws a
`TypeError` when `stylers` is non-nullish but has no `some` method. -/
def stylersSomeVisibility : StylersField → Except JsError Bool
  | .arr l => someVisibilityScan l
  | .prim p => if p.isNullish then .ok false else .error .typeError

/-- `separateRules` — split the rule list into `labels.icon` visibility
rules and all others, preserving order. -/
def separateRules : List RuleVal →
    Except JsError (List RuleVal × List RuleVal)
  | [] => .ok ([], [])
  | rule :: rest =>
    match rule.getElementType with
    | .error e => .error e
    | .ok et =>
      let isIconRuleE : Except JsError Bool :=
        if et = .str "labels.icon" then
          match rule.getStylers with
          | .error e => .error e
          | .ok st => stylersSomeVisibility st
        else .ok false
      match isIconRuleE with
      | .error e => .error e
      | .ok isIconRule =>
        match separateRules rest with
        | .error e => .error e
        | .ok p =>
          if isIconRule then .ok (rule :: p.1, p.2)
          else .ok (p.1, rule :: p.2)

/-! ### HSL adjustment handling — `src/core/hsl-adjustments.js` -/

/-- `getHslAdjustments` — merge the records of the feature's ancestors and
of the feature itself (the feature's own fields last). -/
def getHslAdjustments (featureId : String)
    (hslAdjustmentsMap : List (String × HslAdj)) : Option HslAdj :=
  let step := fun (acc : HslAdj × Bool) (pid : String) =>
    match hslAdjustmentsMap.lookup pid with
    | none => acc
    | some pa =>
      let a₁ :=
        match pa.saturation with
        | some s => { acc.1 with saturation := some s }
        | none => acc.1
      let a₂ :=
        match pa.lightness with
        | some l => { a₁ with lightness := some l }
        | none => a₁
      (a₂, acc.2 || pa.saturation.isSome || pa.lightness.isSome)
  let r := (getParentFeatureIds featureId ++ [featureId]).foldl step
    ({ saturation := none, lightness := none }, false)
  if r.2 then some r.1 else none

/-- `getExternalAdjustments` — no external adjustments for specific rules
carrying their own color, nor for pure black/white bases without local
adjustments. -/
def getExternalAdjustments (isGeneralRule hasExplicitColor
    hasHslAdjustments : Bool) (normalizedColor : Option String)
    (featureId : String) (hslAdjustmentsMap : List (String × HslAdj)) :
    Option HslAdj :=
  let isPureBlackOrWhite :=
    normalizedColor == some PURE_BLACK || normalizedColor == some PURE_WHITE
  if !isGeneralRule && hasExplicitColor then none
  else if isPureBlackOrWhite && !hasHslAdjustments then none
  else getHslAdjustments featureId hslAdjustmentsMap

/-- `applyColorAdjustments` — apply the rule's own then the external
adjustments to an existing color. -/
def applyColorAdjustments (existingColor : String)
    (lightness saturation : Option JSPrim)
    (externalAdjustments : Option HslAdj) : String :=
  let adjustedColor := applyHslAdjustments (.str existingColor) lightness
    saturation
  match externalAdjustments with
  | some e =>
    applyHslAdjustments (.str adjustedColor) (e.lightness.map .num)
      (e.saturation.map .num)
  | none => adjustedColor

/-- `handleHslAdjustments` — record numeric saturation/lightness of a
general rule for every target id (per-field overwrite). -/
def handleHslAdjustments (mergedStyler : Styler) (targetIds : List String)
    (hslAdjustmentsMap : List (String × HslAdj)) : List (String × HslAdj) :=
  let sat : Option Q :=
    if fieldDefined mergedStyler.saturation then
      jsParseFloat (fieldValue mergedStyler.saturation)
    else none
  let light : Option Q :=
    if fieldDefined mergedStyler.lightness then
      jsParseFloat (fieldValue mergedStyler.lightness)
    else none
  if sat.isNone ∧ light.isNone then hslAdjustmentsMap
  else
    targetIds.foldl
      (fun m id =>
        let existing := (m.lookup id).getD { saturation := none, lightness := none }
        setAssoc m id
          { saturation := sat <|> existing.saturation,
            lightness := light <|> existing.lightness })
      hslAdjustmentsMap

/-! ### Visibility processing — `src/core/visibility-processing.js` -/

/-- `handleLabelsIconVisibility` — icon/shield features get `label.visible`
set (off always wins); other label-capable features with a legal
`pinFillColor` are icon-suppressed on `off` (deleting any set pin color)
and un-suppressed on `on`. -/
def handleLabelsIconVisibility (targetIds : List String) (visible : Bool)
    (v2StylesMap : List (String × V2Style)) (iconVisibilityOffSet : List String) :
    List (String × V2Style) × List String :=
  targetIds.foldl
    (fun acc id =>
      let (m, off) := acc
      if !supportsLabel id then acc
      else if isIconShieldFeature id then
        let (m₁, style) := getOrCreateStyle m id
        let label := style.label.getD {}
        let label₁ :=
          if label.visible = none then { label with visible := some visible }
          else if !visible then { label with visible := some false }
          else label
        (setAssoc m₁ id { style with label := some label₁ }, off)
      else if isValidLabelProperty id "pinFillColor" then
        if !visible then
          let off₁ := addIfAbsent off id
          match m.lookup id with
          | some style =>
            match style.label with
            | some l =>
              if l.pinFillColor.isSome then
                (setAssoc m id
                  { style with label := some { l with pinFillColor := none } },
                  off₁)
              else (m, off₁)
            | none => (m, off₁)
          | none => (m, off₁)
        else (m, off.filter (· ≠ id))
      else acc)
    (v2StylesMap, iconVisibilityOffSet)

/-- `shouldApplyGeometryVisibility` — the shield sanity check for
`geometry.fill` / `geometry.stroke` element types. -/
def shouldApplyGeometryVisibility (elementType : JSPrim) (id : String) : Bool :=
  if elementType == .str "geometry.fill" then
    isValidGeometryProperty id "fillColor"
  else if elementType == .str "geometry.stroke" then
    isValidGeometryProperty id "strokeColor"
  else true

/-- `${elementType || "all"}` for a validated string-or-nullish value. -/
def elemKeyStr (elementType : JSPrim) : String :=
  match elementType with
  | .str s => if s = "" then "all" else s
  | _ => "all"

/-- `hasMoreSpecificVisibility` — does the ledger contain, for this id, an
entry written by a strictly more specific legacy feature type whose
element-type combination covers the current one? -/
def hasMoreSpecificVisibility (featureType : String) (elementType : JSPrim)
    (v2Id : String) (visibilitySourceMap : List (String × String)) : Bool :=
  if featureType = "" then false
  else
    visibilitySourceMap.any fun entry =>
      let key := entry.1
      let sourceFeatureType := entry.2
      if !jsStartsWith key (v2Id ++ ":") then false
      else if !jsStartsWith sourceFeatureType (featureType ++ ".") then false
      else
        let sourceElementType := jsDropChars key (jsLength v2Id + 1)
        if !elementType.truthy || elementType == .str "all" then true
        else
          match elementType with
          | .str e => sourceElementType = e ∨ jsStartsWith sourceElementType (e ++ ".")
          | _ => false

/-- `handleGeneralVisibility` — apply a visibility value to each target id
according to its capabilities, skipping ids already covered by a more
specific rule, and record each write in the ledger. -/
def handleGeneralVisibility (targetIds : List String) (visible : Bool)
    (elementType : JSPrim) (v2StylesMap : List (String × V2Style))
    (featureType : String) (visibilitySourceMap : List (String × String)) :
    List (String × V2Style) × List (String × String) :=
  targetIds.foldl
    (fun acc id =>
      let (m, vm) := acc
      let key := id ++ ":" ++ elemKeyStr elementType
      if hasMoreSpecificVisibility featureType elementType id vm then acc
      else
        let (m₁, style) := getOrCreateStyle m id
        let hasGeometry := supportsGeometry id
        let hasLabel := supportsLabel id
        let shouldApplyGeometry := shouldApplyGeometryVisibility elementType id
        let isGeometryTarget := !elementType.truthy ||
          elementType == .str "all" || primStartsWith elementType "geometry"
        let isLabelTarget := !elementType.truthy ||
          elementType == .str "all" || primStartsWith elementType "labels"
        if !hasGeometry && hasLabel then
          let isGeneralLabelTarget := !elementType.truthy ||
            elementType == .str "all" || elementType == .str "labels" ||
            elementType == .str "labels.text" || elementType == .str "labels.icon"
          if isGeneralLabelTarget then
            let label := style.label.getD {}
            (setAssoc m₁ id
              { style with label := some { label with visible := some visible } },
              setAssoc vm key featureType)
          else (m₁, vm)
        else if hasGeometry && !hasLabel then
          if isGeometryTarget && shouldApplyGeometry then
            let g := style.geometry.getD {}
            (setAssoc m₁ id
              { style with geometry := some { g with visible := some visible } },
              setAssoc vm key featureType)
          else (m₁, vm)
        else if hasGeometry && primStartsWith elementType "geometry" then
          if shouldApplyGeometry then
            let g := style.geometry.getD {}
            (setAssoc m₁ id
              { style with geometry := some { g with visible := some visible } },
              setAssoc vm key featureType)
          else (m₁, vm)
        else
          let style₁ := ensureRequiredElements style id elementType
          let (style₂, vm₁) :=
            if isGeometryTarget && hasGeometry && shouldApplyGeometry then
              let g := style₁.geometry.getD {}
              ({ style₁ with geometry := some { g with visible := some visible } },
                setAssoc vm key featureType)
            else (style₁, vm)
          let (style₃, vm₂) :=
            if isLabelTarget && hasLabel then
              let l := style₂.label.getD {}
              ({ style₂ with label := some { l with visible := some visible } },
                setAssoc vm₁ key featureType)
            else (style₂, vm₁)
          (setAssoc m₁ id style₃, vm₂))
    (v2StylesMap, visibilitySourceMap)

/-! ### Color processing — `src/core/color-processing.js` -/

/-- `applyGammaIfPresent` — apply gamma to the color, or to the fallback
when the color is `null`. -/
def applyGammaIfPresent (pow : Q → Q → Q) (color : Option String)
    (gamma : Option JSPrim) (fallbackColor : Option String) : Option String :=
  if !fieldNonNullish gamma then color
  else
    match color with
    | some c => some (applyGamma pow c gamma)
    | none =>
      match fallbackColor with
      | some f => if f ≠ "" then some (applyGamma pow f gamma) else none
      | none => none

/-- `processColor` — extract a color, fall back to adjusting the existing
color when the rule is adjustment-only, then apply gamma. -/
def processColor (pow : Q → Q → Q) (mergedStyler : Styler)
    (externalAdjustments : Option HslAdj) (existingColor : Option String) :
    Option String :=
  let color := extractColor mergedStyler externalAdjustments
  let hasHslAdjustments := fieldDefined mergedStyler.saturation ||
    fieldDefined mergedStyler.lightness
  let color₁ :=
    match color, existingColor with
    | none, some e =>
      if hasHslAdjustments ∧ e ≠ "" then
        some (applyColorAdjustments e mergedStyler.lightness
          mergedStyler.saturation externalAdjustments)
      else none
    | c, _ => c
  applyGammaIfPresent pow color₁ mergedStyler.gamma existingColor

/-- `setVisibilityOnColor` for the geometry section. -/
def setVisibilityOnColorGeom (style : V2Style) (mergedStyler : Styler) :
    V2Style :=
  if fieldDefined mergedStyler.visibility then style
  else
    let g := style.geometry.getD {}
    if g.visible = none then
      { style with geometry := some { g with visible := some true } }
    else { style with geometry := some g }

/-- `setVisibilityOnColor` for the label section. -/
def setVisibilityOnColorLabel (style : V2Style) (mergedStyler : Styler) :
    V2Style :=
  if fieldDefined mergedStyler.visibility then style
  else
    let l := style.label.getD {}
    if l.visible = none then
      { style with label := some { l with visible := some true } }
    else { style with label := some l }

/-- `processGeometryColor` — resolve and write one geometry color
property. -/
def processGeometryColor (pow : Q → Q → Q) (mergedStyler : Styler)
    (id targetProperty : String) (style : V2Style)
    (isGeneralRule hasExplicitColor hasHslAdjustments : Bool)
    (hslAdjustmentsMap : List (String × HslAdj)) : V2Style :=
  let normalizedColor :=
    if hasExplicitColor then some (normalizeHex (fieldValue mergedStyler.color))
    else none
  let externalAdjustments := getExternalAdjustments isGeneralRule
    hasExplicitColor hasHslAdjustments normalizedColor id hslAdjustmentsMap
  let geometry := style.geometry.getD {}
  let style₁ := { style with geometry := some geometry }
  let existingColor := geometry.getColorProp targetProperty
  let color := processColor pow mergedStyler externalAdjustments existingColor
  match color with
  | some c =>
    setVisibilityOnColorGeom
      { style₁ with geometry := some (geometry.setColorProp targetProperty c) }
      mergedStyler
  | none => style₁

/-- `processLabelColor` — resolve and write one label color property,
skipping `pinFillColor` for icon-suppressed ids. -/
def processLabelColor (pow : Q → Q → Q) (mergedStyler : Styler)
    (id property : String) (style : V2Style)
    (isGeneralRule hasExplicitColor hasHslAdjustments : Bool)
    (iconVisibilityOffSet : List String)
    (hslAdjustmentsMap : List (String × HslAdj)) : V2Style :=
  if property = "pinFillColor" ∧ id ∈ iconVisibilityOffSet then style
  else
    let normalizedColor :=
      if hasExplicitColor then
        some (normalizeHex (fieldValue mergedStyler.color))
      else none
    let externalAdjustments := getExternalAdjustments isGeneralRule
      hasExplicitColor hasHslAdjustments normalizedColor id hslAdjustmentsMap
    let label := style.label.getD {}
    let style₁ := { style with label := some label }
    let existingColor := label.getColorProp property
    let color := processColor pow mergedStyler externalAdjustments existingColor
    match color with
    | some c =>
      setVisibilityOnColorLabel
        { style₁ with label := some (label.setColorProp property c) }
        mergedStyler
    | none => style₁

/-- `applyAdjustmentsToExistingColor`, geometry section. -/
def applyAdjustmentsToExistingColorGeom (pow : Q → Q → Q)
    (mergedStyler : Styler) (style : V2Style) (property : String)
    (externalAdjustments : Option HslAdj) : V2Style :=
  let g := style.geometry.getD {}
  let style₁ := { style with geometry := some g }
  match g.getColorProp property with
  | none => style₁
  | some existingColor =>
    if existingColor = "" then style₁
    else
      let hasHslAdjustments := fieldDefined mergedStyler.saturation ||
        fieldDefined mergedStyler.lightness
      let adjusted :=
        if hasHslAdjustments then
          applyColorAdjustments existingColor mergedStyler.lightness
            mergedStyler.saturation externalAdjustments
        else existingColor
      let adjusted₁ :=
        (applyGammaIfPresent pow (some adjusted) mergedStyler.gamma none).getD
          adjusted
      { style₁ with geometry := some (g.setColorProp property adjusted₁) }

/-- `applyAdjustmentsToExistingColor`, label section. -/
def applyAdjustmentsToExistingColorLabel (pow : Q → Q → Q)
    (mergedStyler : Styler) (style : V2Style) (property : String)
    (externalAdjustments : Option HslAdj) : V2Style :=
  let l := style.label.getD {}
  let style₁ := { style with label := some l }
  match l.getColorProp property with
  | none => style₁
  | some existingColor =>
    if existingColor = "" then style₁
    else
      let hasHslAdjustments := fieldDefined mergedStyler.saturation ||
        fieldDefined mergedStyler.lightness
      let adjusted :=
        if hasHslAdjustments then
          applyColorAdjustments existingColor mergedStyler.lightness
            mergedStyler.saturation externalAdjustments
        else existingColor
      let adjusted₁ :=
        (applyGammaIfPresent pow (some adjusted) mergedStyler.gamma none).getD
          adjusted
      { style₁ with label := some (l.setColorProp property adjusted₁) }

/-- `processAllElementColors` — the `"all"`/absent element-type branch:
apply the operation's color (or adjust existing colors) on every legal
color property of every target id. -/
def processAllElementColors (pow : Q → Q → Q) (mergedStyler : Styler)
    (targetIds : List String) (v2StylesMap : List (String × V2Style))
    (hasExplicitColor hasHslAdjustments : Bool)
    (iconVisibilityOffSet : List String)
    (hslAdjustmentsMap : List (String × HslAdj)) : List (String × V2Style) :=
  let normalizedColor :=
    if hasExplicitColor then some (normalizeHex (fieldValue mergedStyler.color))
    else none
  let hasGamma := fieldNonNullish mergedStyler.gamma
  targetIds.foldl
    (fun m id =>
      let externalAdjustments := getExternalAdjustments true hasExplicitColor
        hasHslAdjustments normalizedColor id hslAdjustmentsMap
      let color := extractColor mergedStyler externalAdjustments
      if color = none ∧ (hasHslAdjustments ∨ hasGamma) then
        let (m₁, style) := getOrCreateStyle m id
        let style₁ := ensureRequiredElements style id .null
        let style₂ :=
          if supportsGeometry id then
            let targetProperty := mapGeometryColor id
            if isValidGeometryProperty id targetProperty then
              applyAdjustmentsToExistingColorGeom pow mergedStyler style₁
                targetProperty externalAdjustments
            else style₁
          else style₁
        let style₃ :=
          if supportsLabel id then
            ["textFillColor", "pinFillColor"].foldl
              (fun st prop =>
                if isValidLabelProperty id prop then
                  applyAdjustmentsToExistingColorLabel pow mergedStyler st prop
                    externalAdjustments
                else st)
              style₂
          else style₂
        setAssoc m₁ id style₃
      else
        match color with
        | none => m
        | some c₀ =>
          let c := (applyGammaIfPresent pow (some c₀) mergedStyler.gamma
            none).getD c₀
          let (m₁, style) := getOrCreateStyle m id
          let style₁ := ensureRequiredElements style id .null
          let style₂ :=
            if supportsGeometry id then
              match getV2PropertyPath (.str "geometry") with
              | some path =>
                let property := ((jsSplitChar path '.').drop 1).headD ""
                let targetProperty :=
                  if property = "color" then mapGeometryColor id else property
                if isValidGeometryProperty id targetProperty then
                  let g := style₁.geometry.getD {}
                  setVisibilityOnColorGeom
                    { style₁ with
                        geometry := some (g.setColorProp targetProperty c) }
                    mergedStyler
                else style₁
              | none =>
                let targetProperty := mapGeometryColor id
                if isValidGeometryProperty id targetProperty then
                  let g := style₁.geometry.getD {}
                  setVisibilityOnColorGeom
                    { style₁ with
                        geometry := some (g.setColorProp targetProperty c) }
                    mergedStyler
                else style₁
            else style₁
          let style₃ :=
            if supportsLabel id then
              let l₀ := style₂.label.getD {}
              let s₀ := { style₂ with label := some l₀ }
              let s₁ :=
                if isValidLabelProperty id "textFillColor" then
                  setVisibilityOnColorLabel
                    { s₀ with
                        label := some ((s₀.label.getD {}).setColorProp
                          "textFillColor" c) }
                    mergedStyler
                else s₀
              let s₂ :=
                if isValidLabelProperty id "pinFillColor" &&
                    !(iconVisibilityOffSet.contains id) then
                  setVisibilityOnColorLabel
                    { s₁ with
                        label := some ((s₁.label.getD {}).setColorProp
                          "pinFillColor" c) }
                    mergedStyler
                else s₁
              s₂
            else style₂
          setAssoc m₁ id style₃)
    v2StylesMap

/-! ### Variant detection — `src/core/variant-detection.js` -/

/-- The stylers array of a rule-array element as the variant scan sees it
(`style?.stylers` followed by an `Array.isArray` check). -/
def ruleStylersArray : RuleVal → Option (List StylerVal)
  | .obj r =>
    match r.stylers with
    | .arr l => some l
    | .prim _ => none
  | .prim _ => none

/-- Total lightness and count over every truthy styler color. -/
def variantTotals (v1Styles : List RuleVal) : Q × ℕ :=
  v1Styles.foldl
    (fun acc style =>
      match ruleStylersArray style with
      | none => acc
      | some stylers =>
        stylers.foldl
          (fun acc styler =>
            match styler with
            | .obj s =>
              if (fieldValue s.color).truthy then
                (acc.1 + (hexToHsl (.str (normalizeHex
                  (fieldValue s.color)))).l, acc.2 + 1)
              else acc
            | .prim _ => acc)
          acc)
    ((0 : Q), (0 : ℕ))

/-- `detectVariant` — `"dark"` iff the average lightness of all explicit
(truthy) colors is below the threshold; `"light"` otherwise, including when
no colors are found. -/
def detectVariant (v1Styles : List RuleVal) : String :=
  if v1Styles = [] then "light"
  else
    let r := variantTotals v1Styles
    if r.2 = 0 then "light"
    else if r.1 / Q.ofNat r.2 < LIGHTNESS_THRESHOLD then "dark" else "light"

/-! ### The refactored converter — `src/core/converter.js` (current) -/

/-- `featureType || "all"` on a validated string-or-nullish value. -/
def featureTypeOrAll (featureType : JSPrim) : String :=
  match featureType with
  | .str s => if s = "" then "all" else s
  | _ => "all"

/-- The body of `processV1Rule` after the destructuring of the rule; pure
on the conversion state. -/
def processV1RuleCore (pow : Q → Q → Q) (rule : V1Rule) (st : ConvState) :
    ConvState :=
  let featureType := rule.featureType
  let elementType := rule.elementType
  if !validateRuleTypes featureType elementType then st
  else
    match rule.stylers with
    | .prim _ => st
    | .arr stylers =>
      if stylers = [] then st
      else
        let targetIds := expandTargetIds featureType
        if targetIds = [] then st
        else
          let mergedStyler := mergeStylers stylers
          let isGeneralRule := elementType == .str "all" || !elementType.truthy
          let hasExplicitColor := fieldNonNullish mergedStyler.color
          let hasHslAdjustments := fieldDefined mergedStyler.saturation ||
            fieldDefined mergedStyler.lightness
          let st₁ :=
            if isGeneralRule && !hasExplicitColor && hasHslAdjustments then
              { st with hsl := handleHslAdjustments mergedStyler targetIds st.hsl }
            else st
          let st₂ :=
            if fieldDefined mergedStyler.visibility then
              match getV2Visibility (fieldValue mergedStyler.visibility) with
              | none => st₁
              | some visible =>
                if elementType == .str "labels.icon" then
                  let r := handleLabelsIconVisibility targetIds visible
                    st₁.styles st₁.iconOff
                  { st₁ with styles := r.1, iconOff := r.2 }
                else
                  let r := handleGeneralVisibility targetIds visible elementType
                    st₁.styles (featureTypeOrAll featureType) st₁.vsrc
                  { st₁ with styles := r.1, vsrc := r.2 }
            else st₁
          match getV2PropertyPath elementType with
          | some _ =>
            targetIds.foldl
              (fun s id =>
                match getV2PropertyPath elementType with
                | none => s
                | some path =>
                  let parts := jsSplitChar path '.'
                  let sect := parts.headD ""
                  let property := (parts.drop 1).headD ""
                  if sect = "geometry" ∧ !supportsGeometry id then s
                  else if sect = "label" ∧ !supportsLabel id then s
                  else
                    let r := getOrCreateStyle s.styles id
                    let m₁ := r.1
                    let style₁ := ensureRequiredElements r.2 id elementType
                    if sect = "geometry" then
                      let isColorProperty := property = "fillColor" ∨
                        property = "strokeColor" ∨ property = "color"
                      let targetProperty :=
                        if property = "color" then mapGeometryColor id
                        else property
                      if isColorProperty ∧
                          isValidGeometryProperty id targetProperty then
                        let style₂ := processGeometryColor pow mergedStyler id
                          targetProperty style₁ isGeneralRule hasExplicitColor
                          hasHslAdjustments s.hsl
                        { s with styles := setAssoc m₁ id style₂ }
                      else if property = "strokeWeight" ∧
                          isValidGeometryProperty id "strokeWeight" then
                        match convertWeight mergedStyler.weight with
                        | some weight =>
                          let g := style₁.geometry.getD {}
                          let g₁ := { g with strokeWeight := some weight }
                          let style₂ := { style₁ with geometry := some g₁ }
                          { s with styles := setAssoc m₁ id style₂ }
                        | none => { s with styles := setAssoc m₁ id style₁ }
                      else { s with styles := setAssoc m₁ id style₁ }
                    else if sect = "label" then
                      if (property = "textFillColor" ∨
                          property = "textStrokeColor" ∨
                          property = "pinFillColor") ∧
                          isValidLabelProperty id property then
                        let style₂ := processLabelColor pow mergedStyler id
                          property style₁ isGeneralRule hasExplicitColor
                          hasHslAdjustments s.iconOff s.hsl
                        { s with styles := setAssoc m₁ id style₂ }
                      else { s with styles := setAssoc m₁ id style₁ }
                    else { s with styles := setAssoc m₁ id style₁ })
              st₂
          | none =>
            if isGeneralRule then
              let m := processAllElementColors pow mergedStyler targetIds
                st₂.styles hasExplicitColor hasHslAdjustments st₂.iconOff
                st₂.hsl
              { st₂ with styles := m }
            else st₂

/-- `processV1Rule` — destructure the rule (a `TypeError` for nullish
elements) and run the pure body. -/
def processV1Rule (pow : Q → Q → Q) (rule : RuleVal) (st : ConvState) :
    Except JsError ConvState :=
  match rule.destructure with
  | .error e => .error e
  | .ok r => .ok (processV1RuleCore pow r st)

/-- Process a list of rules in order. -/
def processRules (pow : Q → Q → Q) : List RuleVal → ConvState →
    Except JsError ConvState
  | [], st => .ok st
  | rule :: rest, st =>
    match processV1Rule pow rule st with
    | .error e => .error e
    | .ok st₁ => processRules pow rest st₁

/-- A parsed JSON input value: an array of rules or anything else. -/
inductive JSONValue where
  | arr (rules : List RuleVal)
  | other (p : JSPrim)
deriving DecidableEq, Repr

/-- The converter input: a JSON string or an in-memory value. -/
inductive V1Input where
  | str (s : String)
  | val (v : JSONValue)
deriving DecidableEq, Repr

/-- The converter result shape `{variant, styles}`. -/
structure V2Output where
  variant : String
  styles : List V2Style
deriving DecidableEq, Repr

/-- The final cleanup pass shared by both converters is
`.map(cleanupStyle).filter(s => s !== null && (s.geometry || s.label))`;
this is its composition for the refactored cleanup. -/
def finalizeStyles (m : List (String × V2Style)) : List V2Style :=
  ((m.map (·.2)).map cleanupStyle).filterMap fun o =>
    match o with
    | some s => if s.geometry.isSome || s.label.isSome then some s else none
    | none => none

/-- `convertV1ToV2` (refactored, current version) — parse/validate the
input, detect the variant, split icon-visibility rules from the rest,
process both groups in order, apply the transit default, and clean up.
`parse` models `JSON.parse` (`none` = parse exception); this is the
array-processing body. -/
def convertArray (pow : Q → Q → Q) (rules : List RuleVal) :
    Except JsError V2Output :=
  let variant := detectVariant rules
  match separateRules rules with
  | .error e => .error e
  | .ok sep =>
    let labelsIconVisibilityRules := sep.1
    let otherRules := sep.2
    match trackDirectlyMappedIds (otherRules ++ labelsIconVisibilityRules) with
    | .error e => .error e
    | .ok directlyMappedIds =>
      match processRules pow otherRules {} with
      | .error e => .error e
      | .ok st₁ =>
        match processRules pow labelsIconVisibilityRules st₁ with
        | .error e => .error e
        | .ok st₂ =>
          let styles₁ := setDefaultTransitVisibility st₂.styles
            directlyMappedIds
          .ok { variant := variant, styles := finalizeStyles styles₁ }

/-- `convertV1ToV2` (refactored): input parsing and array validation in
front of `convertArray`. -/
def convertV1ToV2 (pow : Q → Q → Q) (parse : String → Option JSONValue)
    (v1Input : V1Input) : Except JsError V2Output :=
  match v1Input with
  | .str s =>
    match parse s with
    | none => .error .invalidJson
    | some (.other _) => .error .notArray
    | some (.arr rules) => convertArray pow rules
  | .val (.other _) => .error .notArray
  | .val (.arr rules) => convertArray pow rules

/-! ### The monolithic converter — `src/core/converter.js` (previous
version, kept alongside the refactored one).  It shares `color-utils`,
`mapping` and `feature-properties`; its local `getParentFeatureIds` /
`getHslAdjustments` copies are byte-identical to the shared ones above and
are reused. -/

namespace Monolithic

/-- `detectVariant` (monolithic copy, threshold written as a literal). -/
def detectVariant (v1Styles : List RuleVal) : String :=
  if v1Styles = [] then "light"
  else
    let r := variantTotals v1Styles
    if r.2 > 0 then
      if r.1 / Q.ofNat r.2 < 50 then "dark" else "light"
    else "light"

/-- `convertWeight` (monolithic copy, constants inlined). -/
def convertWeight (weight : Option JSPrim) : Option Q :=
  if !fieldNonNullish weight then none
  else
    match jsParseFloat (fieldValue weight) with
    | none => none
    | some numWeight =>
      let clamped := max 0 (min 8 numWeight)
      some (Q.ofInt (jsRound (clamped / (1 / 8))) * (1 / 8))

/-- The body of the monolithic `processV1Rule` after destructuring.  It has
no icon-suppression set, no precedence ledger, no hierarchical target-id
expansion and no visibility-on-color defaulting. -/
def processV1RuleCore (rule : V1Rule)
    (stylesMap : List (String × V2Style)) (hslMap : List (String × HslAdj)) :
    List (String × V2Style) × List (String × HslAdj) :=
  let featureType := rule.featureType
  let elementType := rule.elementType
  if !(featureType.isNullish || featureType.isString) then (stylesMap, hslMap)
  else if !(elementType.isNullish || elementType.isString) then
    (stylesMap, hslMap)
  else
    match rule.stylers with
    | .prim _ => (stylesMap, hslMap)
    | .arr stylers =>
      let targetIds :=
        if featureType == .str "all" then getAllV2Ids
        else
          match getV2Id featureType with
          | some id => [id]
          | none => []
      if targetIds = [] then (stylesMap, hslMap)
      else
        let mergedStyler := mergeStylers stylers
        let isGeneralRule := elementType == .str "all" || !elementType.truthy
        let hasExplicitColor := fieldNonNullish mergedStyler.color
        let hasHslAdjustments := fieldDefined mergedStyler.saturation ||
          fieldDefined mergedStyler.lightness
        let hslMap₁ :=
          if isGeneralRule && !hasExplicitColor && hasHslAdjustments then
            handleHslAdjustments mergedStyler targetIds hslMap
          else hslMap
        let stylesMap₁ :=
          if fieldDefined mergedStyler.visibility then
            match getV2Visibility (fieldValue mergedStyler.visibility) with
            | none => stylesMap
            | some visible =>
              if elementType == .str "labels.icon" then
                targetIds.foldl
                  (fun m id =>
                    if !supportsLabel id then m
                    else
                      let r := getOrCreateStyle m id
                      let l := r.2.label.getD {}
                      setAssoc r.1 id
                        { r.2 with label := some { l with visible := some visible } })
                  stylesMap
              else
                targetIds.foldl
                  (fun m id =>
                    let r := getOrCreateStyle m id
                    let style := r.2
                    let hasGeometry := supportsGeometry id
                    let hasLabel := supportsLabel id
                    if !hasGeometry && hasLabel then
                      let l := style.label.getD {}
                      setAssoc r.1 id
                        { style with label := some { l with visible := some visible } }
                    else if hasGeometry && !hasLabel then
                      let g := style.geometry.getD {}
                      setAssoc r.1 id
                        { style with geometry := some { g with visible := some visible } }
                    else
                      let style₁ := ensureRequiredElements style id elementType
                      let isGeometryTarget := !elementType.truthy ||
                        elementType == .str "all" ||
                        primStartsWith elementType "geometry"
                      let isLabelTarget := !elementType.truthy ||
                        elementType == .str "all" ||
                        primStartsWith elementType "labels"
                      let style₂ :=
                        if isGeometryTarget && hasGeometry then
                          let g := style₁.geometry.getD {}
                          { style₁ with geometry := some { g with visible := some visible } }
                        else style₁
                      let style₃ :=
                        if isLabelTarget && hasLabel then
                          let l := style₂.label.getD {}
                          { style₂ with label := some { l with visible := some visible } }
                        else style₂
                      setAssoc r.1 id style₃)
                  stylesMap
          else stylesMap
        let stylesMap₂ :=
          match getV2PropertyPath elementType with
          | some path =>
            let parts := jsSplitChar path '.'
            let sect := parts.headD ""
            let property := (parts.drop 1).headD ""
            targetIds.foldl
              (fun m id =>
                if sect = "geometry" ∧ !supportsGeometry id then m
                else if sect = "label" ∧ !supportsLabel id then m
                else
                  let r := getOrCreateStyle m id
                  let style₁ := ensureRequiredElements r.2 id elementType
                  if sect = "geometry" then
                    let isColorProperty := property = "fillColor" ∨
                      property = "strokeColor" ∨ property = "color"
                    let targetProperty :=
                      if property = "color" then mapGeometryColor id
                      else property
                    if isColorProperty ∧
                        isValidGeometryProperty id targetProperty then
                      let externalAdjustments := getHslAdjustments id hslMap₁
                      match extractColor mergedStyler externalAdjustments with
                      | some c =>
                        let g := (style₁.geometry.getD {}).setColorProp
                          targetProperty c
                        setAssoc r.1 id { style₁ with geometry := some g }
                      | none => setAssoc r.1 id style₁
                    else if property = "strokeWeight" ∧
                        isValidGeometryProperty id "strokeWeight" then
                      match convertWeight mergedStyler.weight with
                      | some weight =>
                        let g := { style₁.geometry.getD {} with
                          strokeWeight := some weight }
                        setAssoc r.1 id { style₁ with geometry := some g }
                      | none => setAssoc r.1 id style₁
                    else setAssoc r.1 id style₁
                  else if sect = "label" then
                    if (property = "textFillColor" ∨
                        property = "textStrokeColor" ∨
                        property = "pinFillColor") ∧
                        isValidLabelProperty id property then
                      let externalAdjustments := getHslAdjustments id hslMap₁
                      match extractColor mergedStyler externalAdjustments with
                      | some c =>
                        let l := (style₁.label.getD {}).setColorProp property c
                        setAssoc r.1 id { style₁ with label := some l }
                      | none => setAssoc r.1 id style₁
                    else setAssoc r.1 id style₁
                  else setAssoc r.1 id style₁)
              stylesMap₁
          | none =>
            if elementType == .str "all" || !elementType.truthy then
              targetIds.foldl
                (fun m id =>
                  let externalAdjustments := getHslAdjustments id hslMap₁
                  match extractColor mergedStyler externalAdjustments with
                  | none => m
                  | some c =>
                    let r := getOrCreateStyle m id
                    let style₁ := ensureRequiredElements r.2 id elementType
                    let style₂ :=
                      if supportsGeometry id then
                        let targetProperty := mapGeometryColor id
                        if isValidGeometryProperty id targetProperty then
                          let g := (style₁.geometry.getD {}).setColorProp
                            targetProperty c
                          { style₁ with geometry := some g }
                        else style₁
                      else style₁
                    let style₃ :=
                      if supportsLabel id then
                        let l₀ := style₂.label.getD {}
                        let l₁ :=
                          if isValidLabelProperty id "textFillColor" then
                            { l₀ with textFillColor := some c }
                          else l₀
                        let l₂ :=
                          if isValidLabelProperty id "pinFillColor" then
                            { l₁ with pinFillColor := some c }
                          else l₁
                        { style₂ with label := some l₂ }
                      else style₂
                    setAssoc r.1 id style₃)
                stylesMap₁
            else stylesMap₁
        (stylesMap₂, hslMap₁)

/-- Monolithic `processV1Rule` with the destructuring `TypeError`. -/
def processV1Rule (rule : RuleVal) (stylesMap : List (String × V2Style))
    (hslMap : List (String × HslAdj)) :
    Except JsError (List (String × V2Style) × List (String × HslAdj)) :=
  match rule.destructure with
  | .error e => .error e
  | .ok r => .ok (processV1RuleCore r stylesMap hslMap)

/-- Process the rule list in order. -/
def processRules : List RuleVal →
    List (String × V2Style) × List (String × HslAdj) →
    Except JsError (List (String × V2Style) × List (String × HslAdj))
  | [], maps => .ok maps
  | rule :: rest, maps =>
    match processV1Rule rule maps.1 maps.2 with
    | .error e => .error e
    | .ok maps₁ => processRules rest maps₁

/-- `cleanupStyle` (monolithic) — keeps whole sections, with no per-key
filtering. -/
def cleanupStyle (style : V2Style) : Option V2Style :=
  let hasGeometry := supportsGeometry style.id
  let hasLabel := supportsLabel style.id
  let cg : Option GeometryObj :=
    match style.geometry with
    | some g => if hasGeometry ∧ g.hasKeys then some g else none
    | none => none
  let cl : Option LabelObj :=
    match style.label with
    | some l => if hasLabel ∧ l.hasKeys then some l else none
    | none => none
  if cg.isNone ∧ cl.isNone then none
  else some { id := style.id, geometry := cg, label := cl }

/-- The array-processing body of the monolithic `convertV1ToV2`. -/
def convertArray (rules : List RuleVal) : Except JsError V2Output :=
  let variant := detectVariant rules
  match processRules rules ([], []) with
  | .error e => .error e
  | .ok maps =>
    let styles := ((maps.1.map (·.2)).map cleanupStyle).filterMap fun o =>
      match o with
      | some s => if s.geometry.isSome || s.label.isSome then some s else none
      | none => none
    .ok { variant := variant, styles := styles }

/-- `convertV1ToV2` (monolithic). -/
def convertV1ToV2 (parse : String → Option JSONValue) (v1Input : V1Input) :
    Except JsError V2Output :=
  match v1Input with
  | .str s =>
    match parse s with
    | none => .error .invalidJson
    | some (.other _) => .error .notArray
    | some (.arr rules) => convertArray rules
  | .val (.other _) => .error .notArray
  | .val (.arr rules) => convertArray rules

end Monolithic

/-! ### Claim-side definitions -/

/-- Does the `separateRules` visibility scan over a stylers array complete
without touching a nullish element?  (`.some` stops at the first element
with a defined `visibility`.) -/
def benignStylerScan : List StylerVal → Bool
  | [] => true
  | .obj s :: rest => fieldDefined s.visibility || benignStylerScan rest
  | .prim p :: rest => !p.isNullish && benignStylerScan rest

/-- A rule-array element on which the rule handling cannot throw: not a
nullish primitive, and not a `labels.icon` rule whose `stylers` is either
a non-nullish non-array value or an array whose visibility scan reaches a
nullish element (the converter's `TypeError` sources). -/
def benignRule : RuleVal → Bool
  | .prim p => !p.isNullish
  | .obj r =>
    !(r.elementType == .str "labels.icon" &&
      (match r.stylers with
       | .prim p => !p.isNullish
       | .arr l => !benignStylerScan l))

/-- A rule-array element whose destructuring cannot throw. -/
def destructurable : RuleVal → Bool
  | .obj _ => true
  | .prim p => !p.isNullish

/-- The parsed input value seen by the converter (`none` models a
`JSON.parse` exception). -/
def parsedInput (parse : String → Option JSONValue) : V1Input →
    Option JSONValue
  | .str s => parse s
  | .val v => some v

/-- Does a stylers-array element carry a truthy color (`styler?.color`)?
Nullish and other primitive elements do not. -/
def stylerHasColor : StylerVal → Bool
  | .obj s => (fieldValue s.color).truthy
  | .prim _ => false

/-- The color value of a stylers-array element as the scan reads it. -/
def stylerColorValue : StylerVal → JSPrim
  | .obj s => fieldValue s.color
  | .prim _ => .undefined

/-- The normalized colors of all truthy styler color values across a rule
list, in order (the colors the variant detection averages). -/
def collectStylerColors (rules : List RuleVal) : List String :=
  rules.flatMap fun r =>
    match ruleStylersArray r with
    | some stylers =>
      (stylers.filter stylerHasColor).map fun s =>
        normalizeHex (stylerColorValue s)
    | none => []

/-- HSL lightness of a normalized color. -/
def lightnessOf (c : String) : Q := (hexToHsl (.str c)).l

/-- Sum of the lightness values of a color list, accumulated in order. -/
def lightnessSum (colors : List String) : Q :=
  colors.foldl (fun a c => a + lightnessOf c) 0

/-- Does a styler operation carry (its own) lightness/saturation keys? -/
def stylerCarriesHsl (op : Styler) : Bool :=
  fieldDefined op.lightness || fieldDefined op.saturation

/-- Does an external adjustment record carry any field? -/
def adjCarriesHsl : Option HslAdj → Bool
  | none => false
  | some a => a.saturation.isSome || a.lightness.isSome

/-- The color the C5 claim predicts for an operation with an explicit
color: normalize it, apply the operation's own lightness/saturation when
carried, then the external record's, except that a pure black/white base
with no local adjustments freezes the external application. -/
def claimExtractColor (op : Styler) (externalAdjustments : Option HslAdj) :
    String :=
  let base := normalizeHex (fieldValue op.color)
  let own :=
    if stylerCarriesHsl op then
      applyHslAdjustments (.str base) op.lightness op.saturation
    else base
  let frozen := (base = PURE_BLACK ∨ base = PURE_WHITE) ∧ ¬ stylerCarriesHsl op
  if adjCarriesHsl externalAdjustments ∧ ¬ frozen then
    match externalAdjustments with
    | some a =>
      applyHslAdjustments (.str own) (a.lightness.map .num)
        (a.saturation.map .num)
    | none => own
  else own

end GMC

deriving instance DecidableEq for Except

namespace GMC

/-! ## Claim theorems -/

/-- C1: the claim states that for every input accepted by `convertV1ToV2`
every style in the returned array has a non-empty geometry or label section
and that every key inside those sections is legal for the style's exact
feature id according to the capability table.  The code violates the
second half: `isValidProperty` falls back to ancestor entries even when the
feature id has its own (restrictive) entry, contradicting the table's own
`Explicitly no …` markers, so a `geometry.fill` rule on
`administrative.land_parcel` emits `fillColor` on `political.landParcel`
although that id's own geometry entry does not contain `fillColor`.  This
theorem evaluates the converter at that failing input. -/
theorem C1_cleanup_emits_key_illegal_for_exact_id :
    convertV1ToV2 (fun _ _ => 0) (fun _ => none)
      (.val (.arr [.obj (V1Rule.mk (.str "administrative.land_parcel")
        (.str "geometry.fill") (.arr [.obj { color := some (.str "#123456") }]))])) =
      .ok (V2Output.mk "dark" [V2Style.mk "political.landParcel"
        (some (GeometryObj.mk (some true) (some "#123456") none none none))
        none]) ∧
    geometryProperties.lookup "political.landParcel" =
      some ["visible", "strokeColor", "strokeOpacity", "strokeWeight"] := by
  decide

/-- C2: the claim states that an id listed with an empty property array is
closed-world — `isValidGeometryProperty`/`isValidLabelProperty` return
false for every property and `supportsGeometry`/`supportsLabel` return
false, regardless of ancestors.  The `supports*` half holds, but the
current `isValidProperty` consults ancestors whenever the property is
missing from the id's own entry, so it returns true for
`political.city`/`fillColor` (inherited from `political`) although
`political.city` has an explicit empty geometry entry, and likewise for
`political.landParcel`/`textFillColor` against its explicit empty label
entry. -/
theorem C2_empty_entry_not_closed_world :
    isValidGeometryProperty "political.city" "fillColor" = true ∧
    geometryProperties.lookup "political.city" = some [] ∧
    supportsGeometry "political.city" = false ∧
    isValidLabelProperty "political.landParcel" "textFillColor" = true ∧
    labelProperties.lookup "political.landParcel" = some [] ∧
    supportsLabel "political.landParcel" = false := by decide

/-- C3: the claim states that a rule with a non-array `stylers` field is
silently skipped and conversion always completes without an error.  In the
current converter `separateRules` evaluates
`rule.stylers?.some(...)` for every rule whose `elementType` is
`labels.icon`; when such a rule carries a non-nullish, non-array `stylers`
value, `.some` is not a function and a `TypeError` aborts the whole
conversion.  The same malformed `stylers` value without the `labels.icon`
element type is skipped as the claim describes. -/
theorem C3_labels_icon_nonarray_stylers_throws :
    convertV1ToV2 (fun _ _ => 0) (fun _ => none)
      (.val (.arr [.obj (V1Rule.mk (.str "poi") (.str "labels.icon")
        (.prim (.str "not-an-array")))])) = .error .typeError ∧
    convertV1ToV2 (fun _ _ => 0) (fun _ => none)
      (.val (.arr [.obj (V1Rule.mk (.str "poi") .undefined
        (.prim (.str "not-an-array")))])) =
      .ok (V2Output.mk "light" []) := by decide

/-- C4 counterexample: the claim states that for every array input the
converter returns a `{variant, styles}` object; but an array containing a
`null` element makes `separateRules` access `.elementType` of `null`, and
a `labels.icon` rule whose stylers array itself contains `null` makes the
`separateRules` visibility scan access `.visibility` of `null` — in both
cases a `TypeError` escapes instead. -/
theorem C4_null_rule_element_throws :
    convertV1ToV2 (fun _ _ => 0) (fun _ => none)
      (.val (.arr [.prim .null])) = .error .typeError ∧
    convertV1ToV2 (fun _ _ => 0) (fun _ => none)
      (.val (.arr [.obj (V1Rule.mk .undefined (.str "labels.icon")
        (.arr [.prim .null]))])) = .error .typeError := by decide

/-- `Except.isOk` on a success value. -/
@[simp] theorem exceptIsOk_ok {α : Type} (a : α) :
    (Except.ok a : Except JsError α).isOk = true := rfl

/-- `Except.isOk` on an error value. -/
@[simp] theorem exceptIsOk_error {α : Type} (e : JsError) :
    (Except.error e : Except JsError α).isOk = false := rfl

/-- The visibility scan succeeds exactly on benign stylers arrays. -/
theorem someVisibilityScan_isOk (l : List StylerVal) :
    (someVisibilityScan l).isOk = benignStylerScan l := by
  induction l with
  | nil => rfl
  | cons sv rest ih =>
    cases sv with
    | obj s =>
      cases hv : fieldDefined s.visibility <;>
        simp [someVisibilityScan, benignStylerScan, hv, ih]
    | prim p =>
      cases hp : p.isNullish <;>
        simp [someVisibilityScan, benignStylerScan, hp, ih]

/-- The visibility scan only ever throws the `TypeError`. -/
theorem someVisibilityScan_error (l : List StylerVal) (e : JsError)
    (h : someVisibilityScan l = .error e) : e = .typeError := by
  induction l generalizing e with
  | nil => cases h
  | cons sv rest ih =>
    cases sv with
    | obj s =>
      simp only [someVisibilityScan] at h
      split at h
      · cases h
      · exact ih e h
    | prim p =>
      simp only [someVisibilityScan] at h
      split at h
      · cases h; rfl
      · exact ih e h

/-- `separateRules` succeeds exactly on lists of benign rules. -/
theorem separateRules_isOk (rules : List RuleVal) :
    (separateRules rules).isOk = rules.all benignRule := by
  induction rules with
  | nil => rfl
  | cons rule rest ih =>
    rw [List.all_cons, ← ih]
    cases rule with
    | prim p =>
      by_cases hn : p.isNullish = true
      · simp [separateRules, RuleVal.getElementType, hn, benignRule,
]
      · simp only [separateRules, RuleVal.getElementType, hn, if_false,
          Bool.false_eq_true]
        simp only [benignRule, hn, Bool.not_false, Bool.true_and]
        simp only [show (JSPrim.undefined = JSPrim.str "labels.icon") ↔ False
          by simp, if_false]
        cases hs : separateRules rest <;> simp
    | obj r =>
      by_cases he : r.elementType = .str "labels.icon"
      · cases hst : r.stylers with
        | arr l =>
          simp only [separateRules, RuleVal.getElementType, he, if_pos,
            RuleVal.getStylers, hst, stylersSomeVisibility]
          simp only [benignRule, he, hst, beq_self_eq_true, Bool.true_and,
            Bool.not_not]
          cases hsv : someVisibilityScan l with
          | error e₁ =>
            have hb : benignStylerScan l = false := by
              rw [← someVisibilityScan_isOk, hsv]; rfl
            simp [hsv, hb]
          | ok b =>
            have hb : benignStylerScan l = true := by
              rw [← someVisibilityScan_isOk, hsv]; rfl
            simp only [hsv, hb]
            cases hs : separateRules rest with
            | error e₁ => simp
            | ok p₂ =>
              dsimp only
              split <;> simp
        | prim p =>
          by_cases hn : p.isNullish = true
          · simp only [separateRules, RuleVal.getElementType, he, if_pos,
              RuleVal.getStylers, hst, stylersSomeVisibility, hn, if_true]
            simp only [benignRule, he, hst, beq_self_eq_true, Bool.true_and,
              hn, Bool.not_true, Bool.and_false, Bool.not_false,
              Bool.true_and]
            cases hs : separateRules rest <;> simp
          · simp [separateRules, RuleVal.getElementType, he,
              RuleVal.getStylers, hst, stylersSomeVisibility, hn, benignRule,
    ]
      · have hneq : (r.elementType == JSPrim.str "labels.icon") = false := by
          simp [he]
        simp only [separateRules, RuleVal.getElementType]
        simp only [if_neg he]
        simp only [benignRule, hneq, Bool.false_and, Bool.not_false,
          Bool.true_and]
        cases hs : separateRules rest <;> simp

/-- `separateRules` errors are always the `TypeError`. -/
theorem separateRules_error (rules : List RuleVal) (e : JsError)
    (h : separateRules rules = .error e) : e = .typeError := by
  induction rules generalizing e with
  | nil => cases h
  | cons rule rest ih =>
    cases rule with
    | prim p =>
      by_cases hn : p.isNullish = true
      · simp only [separateRules, RuleVal.getElementType, hn, if_true] at h
        cases h; rfl
      · simp only [separateRules, RuleVal.getElementType, hn, if_false,
          Bool.false_eq_true] at h
        simp only [show (JSPrim.undefined = JSPrim.str "labels.icon") ↔ False
          by simp, if_false] at h
        cases hs : separateRules rest with
        | error e₁ =>
          rw [hs] at h
          cases h
          exact ih e hs
        | ok p₂ => simp only [hs] at h; split at h <;> simp at h
    | obj r =>
      by_cases he : r.elementType = .str "labels.icon"
      · cases hst : r.stylers with
        | arr l =>
          simp only [separateRules, RuleVal.getElementType, he, if_pos,
            RuleVal.getStylers, hst, stylersSomeVisibility] at h
          cases hsv : someVisibilityScan l with
          | error e₁ =>
            simp only [hsv] at h
            cases h
            exact someVisibilityScan_error l _ hsv
          | ok b =>
            simp only [hsv] at h
            cases hs : separateRules rest with
            | error e₁ => rw [hs] at h; cases h; exact ih e hs
            | ok p₂ => simp only [hs] at h; split at h <;> simp at h
        | prim p =>
          by_cases hn : p.isNullish = true
          · simp only [separateRules, RuleVal.getElementType, he, if_pos,
              RuleVal.getStylers, hst, stylersSomeVisibility, hn,
              if_true] at h
            cases hs : separateRules rest with
            | error e₁ => rw [hs] at h; cases h; exact ih e hs
            | ok p₂ => simp only [hs] at h; split at h <;> simp at h
          · simp only [separateRules, RuleVal.getElementType, he, if_pos,
              RuleVal.getStylers, hst, stylersSomeVisibility, hn, if_false,
              Bool.false_eq_true] at h
            cases h; rfl
      · simp only [separateRules, RuleVal.getElementType, if_neg he] at h
        cases hs : separateRules rest with
        | error e₁ => rw [hs] at h; cases h; exact ih e hs
        | ok p₂ => simp only [hs] at h; split at h <;> simp at h

/-- Every rule in the two lists returned by `separateRules` can be
destructured. -/
theorem separateRules_destructurable (rules : List RuleVal)
    (p : List RuleVal × List RuleVal) (h : separateRules rules = .ok p) :
    p.1.all destructurable = true ∧ p.2.all destructurable = true := by
  induction rules generalizing p with
  | nil => cases h; exact ⟨rfl, rfl⟩
  | cons rule rest ih =>
    have hd : destructurable rule = true ∧
        ∃ q, separateRules rest = .ok q ∧
          (p = (rule :: q.1, q.2) ∨ p = (q.1, rule :: q.2)) := by
      cases rule with
      | prim pp =>
        by_cases hn : pp.isNullish = true
        · simp [separateRules, RuleVal.getElementType, hn] at h
        · refine ⟨by simp [destructurable, hn], ?_⟩
          simp only [separateRules, RuleVal.getElementType, hn, if_false,
            Bool.false_eq_true] at h
          simp only [show (JSPrim.undefined = JSPrim.str "labels.icon") ↔
            False by simp, if_false] at h
          cases hs : separateRules rest with
          | error e₁ => rw [hs] at h; cases h
          | ok q =>
            simp only [hs] at h
            refine ⟨q, rfl, ?_⟩
            split at h <;> (cases h; simp)
      | obj r =>
        refine ⟨rfl, ?_⟩
        by_cases he : r.elementType = .str "labels.icon"
        · cases hst : r.stylers with
          | arr l =>
            simp only [separateRules, RuleVal.getElementType, he, if_pos,
              RuleVal.getStylers, hst, stylersSomeVisibility] at h
            cases hsv : someVisibilityScan l with
            | error e₁ => simp [hsv] at h
            | ok b =>
              simp only [hsv] at h
              cases hs : separateRules rest with
              | error e₁ => rw [hs] at h; cases h
              | ok q =>
                simp only [hs] at h
                refine ⟨q, rfl, ?_⟩
                split at h <;> (cases h; simp)
          | prim pp =>
            by_cases hn : pp.isNullish = true
            · simp only [separateRules, RuleVal.getElementType, he, if_pos,
                RuleVal.getStylers, hst, stylersSomeVisibility, hn,
                if_true] at h
              cases hs : separateRules rest with
              | error e₁ => rw [hs] at h; cases h
              | ok q =>
                simp only [hs] at h
                refine ⟨q, rfl, ?_⟩
                split at h <;> (cases h; simp)
            · simp [separateRules, RuleVal.getElementType, he,
                RuleVal.getStylers, hst, stylersSomeVisibility, hn] at h
        · simp only [separateRules, RuleVal.getElementType, if_neg he] at h
          cases hs : separateRules rest with
          | error e₁ => rw [hs] at h; cases h
          | ok q =>
            simp only [hs] at h
            refine ⟨q, rfl, ?_⟩
            split at h <;> (cases h; simp)
    obtain ⟨hdr, q, hq, hp⟩ := hd
    obtain ⟨h1, h2⟩ := ih q hq
    cases hp with
    | inl hp => subst hp; exact ⟨by simp [hdr, h1], h2⟩
    | inr hp => subst hp; exact ⟨h1, by simp [hdr, h2]⟩

/-- `trackDirectlyMappedIdsGo` succeeds on destructurable rules. -/
theorem trackDirectlyMappedIdsGo_ok (l : List RuleVal)
    (h : l.all destructurable = true) (acc : List String) :
    ∃ ids, trackDirectlyMappedIdsGo l acc = .ok ids := by
  induction l generalizing acc with
  | nil => exact ⟨acc, rfl⟩
  | cons rule rest ih =>
    rw [List.all_cons, Bool.and_eq_true] at h
    have hft : ∃ ft, rule.getFeatureType = .ok ft := by
      cases rule with
      | obj r => exact ⟨r.featureType, rfl⟩
      | prim p =>
        have : p.isNullish = false := by
          simpa [destructurable] using h.1
        exact ⟨.undefined, by simp [RuleVal.getFeatureType, this]⟩
    obtain ⟨ft, hft⟩ := hft
    simp only [trackDirectlyMappedIdsGo, hft]
    split
    · exact ih h.2 acc
    · cases getV2Id ft with
      | none => exact ih h.2 acc
      | some id => exact ih h.2 (addIfAbsent acc id)

/-- `trackDirectlyMappedIdsGo` errors are always the `TypeError`. -/
theorem trackDirectlyMappedIdsGo_error (l : List RuleVal) (acc : List String)
    (e : JsError) (h : trackDirectlyMappedIdsGo l acc = .error e) :
    e = .typeError := by
  induction l generalizing acc e with
  | nil => cases h
  | cons rule rest ih =>
    cases hft : rule.getFeatureType with
    | error e₁ =>
      have he₁ : e₁ = .typeError := by
        cases rule with
        | obj r => cases hft
        | prim p =>
          by_cases hn : p.isNullish = true
          · simp [RuleVal.getFeatureType, hn] at hft
            exact hft.symm
          · simp [RuleVal.getFeatureType, hn] at hft
      simp only [trackDirectlyMappedIdsGo, hft] at h
      cases h
      exact he₁
    | ok ft =>
      simp only [trackDirectlyMappedIdsGo, hft] at h
      split at h
      · exact ih acc e h
      · revert h
        cases getV2Id ft with
        | none => exact fun h => ih acc e h
        | some id => exact fun h => ih (addIfAbsent acc id) e h

/-- `processRules` succeeds on destructurable rules. -/
theorem processRules_ok (pow : Q → Q → Q) (l : List RuleVal)
    (h : l.all destructurable = true) (st : ConvState) :
    ∃ st₁, processRules pow l st = .ok st₁ := by
  induction l generalizing st with
  | nil => exact ⟨st, rfl⟩
  | cons rule rest ih =>
    rw [List.all_cons, Bool.and_eq_true] at h
    have hd : ∃ r, rule.destructure = .ok r := by
      cases rule with
      | obj r => exact ⟨r, rfl⟩
      | prim p =>
        have : p.isNullish = false := by
          simpa [destructurable] using h.1
        exact ⟨{}, by simp [RuleVal.destructure, this]⟩
    obtain ⟨r, hr⟩ := hd
    simp only [processRules, processV1Rule, hr]
    exact ih h.2 (processV1RuleCore pow r st)

/-- `processRules` errors are always the `TypeError`. -/
theorem processRules_error (pow : Q → Q → Q) (l : List RuleVal)
    (st : ConvState) (e : JsError)
    (h : processRules pow l st = .error e) : e = .typeError := by
  induction l generalizing st e with
  | nil => cases h
  | cons rule rest ih =>
    cases hr : rule.destructure with
    | error e₁ =>
      have he₁ : e₁ = .typeError := by
        cases rule with
        | obj r => cases hr
        | prim p =>
          by_cases hn : p.isNullish = true
          · simp only [RuleVal.destructure, hn, if_true] at hr
            cases hr; rfl
          · simp [RuleVal.destructure, hn] at hr
      simp only [processRules, processV1Rule, hr] at h
      cases h
      exact he₁
    | ok r =>
      simp only [processRules, processV1Rule, hr] at h
      exact ih (processV1RuleCore pow r st) e h

/-- The refactored array conversion succeeds exactly on benign rule
lists. -/
theorem convertArray_isOk (pow : Q → Q → Q) (rules : List RuleVal) :
    (convertArray pow rules).isOk = rules.all benignRule := by
  cases hs : separateRules rules with
  | error e =>
    have := separateRules_isOk rules
    rw [hs] at this
    simp only [convertArray, hs]
    simpa using this
  | ok sep =>
    have hall : rules.all benignRule = true := by
      have := separateRules_isOk rules
      rw [hs] at this
      simpa using this.symm
    rw [hall]
    obtain ⟨h1, h2⟩ := separateRules_destructurable rules sep hs
    have htrack : (sep.2 ++ sep.1).all destructurable = true := by
      rw [List.all_append]
      simp [h1, h2]
    obtain ⟨dmi, hdmi⟩ := trackDirectlyMappedIdsGo_ok _ htrack []
    obtain ⟨st₁, hst₁⟩ := processRules_ok pow sep.2 h2 {}
    obtain ⟨st₂, hst₂⟩ := processRules_ok pow sep.1 h1 st₁
    simp [convertArray, hs, trackDirectlyMappedIds, hdmi, hst₁, hst₂]

/-- Errors escaping the refactored array conversion are `TypeError`s. -/
theorem convertArray_error (pow : Q → Q → Q) (rules : List RuleVal)
    (e : JsError) (h : convertArray pow rules = .error e) :
    e = .typeError := by
  unfold convertArray at h
  cases hs : separateRules rules with
  | error e₁ =>
    simp only [hs] at h
    cases h
    exact separateRules_error rules e hs
  | ok sep =>
    simp only [hs] at h
    cases ht : trackDirectlyMappedIds (sep.2 ++ sep.1) with
    | error e₁ =>
      simp only [ht] at h
      cases h
      exact trackDirectlyMappedIdsGo_error _ [] e ht
    | ok dmi =>
      simp only [ht] at h
      cases hp1 : processRules pow sep.2 {} with
      | error e₁ =>
        simp only [hp1] at h
        cases h
        exact processRules_error pow sep.2 {} e hp1
      | ok st₁ =>
        simp only [hp1] at h
        cases hp2 : processRules pow sep.1 st₁ with
        | error e₁ =>
          simp only [hp2] at h
          cases h
          exact processRules_error pow sep.1 st₁ e hp2
        | ok st₂ => simp only [hp2] at h; cases h

/-- C4 amended: the converter raises the invalid-JSON error exactly for
string inputs that fail to parse, the must-be-array error exactly when the
parsed or in-memory value is not an array (both before any rule is
processed), and returns a `{variant, styles}` object exactly for array
inputs whose rules are all benign — a `TypeError` escapes for the
remaining array inputs: `null`/`undefined` elements, `labels.icon` rules
with a non-nullish non-array `stylers`, and `labels.icon` rules whose
stylers array reaches a `null`/`undefined` element before any element
with a defined `visibility` (the `.some` scan stops at the first hit). -/
theorem C4_error_characterization (pow : Q → Q → Q)
    (parse : String → Option JSONValue) (input : V1Input) :
    (convertV1ToV2 pow parse input = .error .invalidJson ↔
      (∃ s, input = .str s ∧ parse s = none)) ∧
    (convertV1ToV2 pow parse input = .error .notArray ↔
      (∃ p, parsedInput parse input = some (.other p))) ∧
    ((convertV1ToV2 pow parse input).isOk = true ↔
      (∃ rules, parsedInput parse input = some (.arr rules) ∧
        rules.all benignRule = true)) := by
  have harr : ∀ rules : List RuleVal,
      (convertArray pow rules ≠ .error .invalidJson) ∧
      (convertArray pow rules ≠ .error .notArray) := by
    intro rules
    constructor <;> intro h <;> cases convertArray_error pow rules _ h
  cases input with
  | str s =>
    cases hp : parse s with
    | none =>
      refine ⟨?_, ?_, ?_⟩
      · simp [convertV1ToV2, hp]
      · simp [convertV1ToV2, parsedInput, hp]
      · simp [convertV1ToV2, parsedInput, hp]
    | some v =>
      cases v with
      | other q =>
        refine ⟨?_, ?_, ?_⟩
        · simp [convertV1ToV2, hp]
        · simp [convertV1ToV2, parsedInput, hp]
        · simp [convertV1ToV2, parsedInput, hp]
      | arr rules =>
        refine ⟨?_, ?_, ?_⟩
        · simp only [convertV1ToV2, hp]
          simp [(harr rules).1, hp]
        · simp only [convertV1ToV2, hp]
          simp [(harr rules).2, parsedInput, hp]
        · simp only [convertV1ToV2, hp, parsedInput]
          rw [convertArray_isOk]
          simp [hp]
  | val v =>
    cases v with
    | other q =>
      refine ⟨?_, ?_, ?_⟩
      · simp [convertV1ToV2]
      · simp [convertV1ToV2, parsedInput]
      · simp [convertV1ToV2, parsedInput]
    | arr rules =>
      refine ⟨?_, ?_, ?_⟩
      · simp [convertV1ToV2, (harr rules).1]
      · simp [convertV1ToV2, (harr rules).2, parsedInput]
      · simp only [convertV1ToV2, parsedInput]
        rw [convertArray_isOk]
        simp

/-- The two variant detectors are the same function. -/
theorem detectVariant_mono_eq (rules : List RuleVal) :
    Monolithic.detectVariant rules = detectVariant rules := by
  unfold Monolithic.detectVariant detectVariant
  split
  · rfl
  · rcases hr : variantTotals rules with ⟨t, n⟩
    cases n with
    | zero => simp
    | succ k => simp [LIGHTNESS_THRESHOLD]

/-- When the refactored array conversion succeeds, the variant field is
`detectVariant` of the rules. -/
theorem convertArray_ok_variant (pow : Q → Q → Q) (rules : List RuleVal)
    (out : V2Output) (h : convertArray pow rules = .ok out) :
    out.variant = detectVariant rules := by
  unfold convertArray at h
  cases hs : separateRules rules with
  | error e => simp [hs] at h
  | ok sep =>
    simp only [hs] at h
    cases ht : trackDirectlyMappedIds (sep.2 ++ sep.1) with
    | error e => simp [ht] at h
    | ok dmi =>
      simp only [ht] at h
      cases hp1 : processRules pow sep.2 {} with
      | error e => simp [hp1] at h
      | ok st₁ =>
        simp only [hp1] at h
        cases hp2 : processRules pow sep.1 st₁ with
        | error e => simp [hp2] at h
        | ok st₂ =>
          simp only [hp2] at h
          cases h
          rfl

/-- When the monolithic array conversion succeeds, the variant field is the
monolithic `detectVariant` of the rules. -/
theorem Monolithic_convertArray_ok_variant (rules : List RuleVal)
    (out : V2Output) (h : Monolithic.convertArray rules = .ok out) :
    out.variant = Monolithic.detectVariant rules := by
  unfold Monolithic.convertArray at h
  cases hp : Monolithic.processRules rules ([], []) with
  | error e => simp [hp] at h
  | ok maps =>
    simp only [hp] at h
    cases h
    rfl

/-- C10 amended: on any input where both converters succeed, the two
results carry the same variant (both compute it with the same
`detectVariant` algorithm before any style processing). -/
theorem C10_variant_agreement (pow : Q → Q → Q)
    (parse : String → Option JSONValue) (input : V1Input)
    (out₁ out₂ : V2Output)
    (h₁ : Monolithic.convertV1ToV2 parse input = .ok out₁)
    (h₂ : convertV1ToV2 pow parse input = .ok out₂) :
    out₁.variant = out₂.variant := by
  cases input with
  | str s =>
    cases hp : parse s with
    | none => simp [Monolithic.convertV1ToV2, hp] at h₁
    | some v =>
      cases v with
      | other p => simp [Monolithic.convertV1ToV2, hp] at h₁
      | arr rules =>
        simp only [Monolithic.convertV1ToV2, hp] at h₁
        simp only [convertV1ToV2, hp] at h₂
        rw [Monolithic_convertArray_ok_variant rules out₁ h₁,
          convertArray_ok_variant pow rules out₂ h₂, detectVariant_mono_eq]
  | val v =>
    cases v with
    | other p => simp [Monolithic.convertV1ToV2] at h₁
    | arr rules =>
      simp only [Monolithic.convertV1ToV2] at h₁
      simp only [convertV1ToV2] at h₂
      rw [Monolithic_convertArray_ok_variant rules out₁ h₁,
        convertArray_ok_variant pow rules out₂ h₂, detectVariant_mono_eq]

/-- C10 amended, witness: the variant agreement applied at the concrete
water rule input. -/
theorem C10_variant_agreement_witness :
    (V2Output.mk "dark" [V2Style.mk "natural.water"
      (some (GeometryObj.mk none (some "#2c2c2c") none none none))
      none]).variant =
    (V2Output.mk "dark" [V2Style.mk "natural.water"
      (some (GeometryObj.mk (some true) (some "#2c2c2c") none none none))
      none]).variant := by
  exact C10_variant_agreement (fun _ _ => 0) (fun _ => none)
    (.val (.arr [.obj (V1Rule.mk (.str "water") (.str "geometry.fill")
      (.arr [.obj { color := some (.str "#2c2c2c") }]))]))
    (V2Output.mk "dark" [V2Style.mk "natural.water"
      (some (GeometryObj.mk none (some "#2c2c2c") none none none)) none])
    (V2Output.mk "dark" [V2Style.mk "natural.water"
      (some (GeometryObj.mk (some true) (some "#2c2c2c") none none none))
      none])
    (by decide) (by decide)

/-- C10 counterexample: the claim states the monolithic and the refactored
`convertV1ToV2` return equal results on every input; on a single
`water`/`geometry.fill` color rule the refactored converter additionally
defaults `geometry.visible` to `true` (`setVisibilityOnColor`), so the two
outputs differ. -/
theorem C10_implementations_differ :
    Monolithic.convertV1ToV2 (fun _ => none)
      (.val (.arr [.obj (V1Rule.mk (.str "water") (.str "geometry.fill")
        (.arr [.obj { color := some (.str "#2c2c2c") }]))])) =
      .ok (V2Output.mk "dark" [V2Style.mk "natural.water"
        (some (GeometryObj.mk none (some "#2c2c2c") none none none)) none]) ∧
    convertV1ToV2 (fun _ _ => 0) (fun _ => none)
      (.val (.arr [.obj (V1Rule.mk (.str "water") (.str "geometry.fill")
        (.arr [.obj { color := some (.str "#2c2c2c") }]))])) =
      .ok (V2Output.mk "dark" [V2Style.mk "natural.water"
        (some (GeometryObj.mk (some true) (some "#2c2c2c") none none none))
        none]) ∧
    (V2Output.mk "dark" [V2Style.mk "natural.water"
        (some (GeometryObj.mk none (some "#2c2c2c") none none none)) none]) ≠
      (V2Output.mk "dark" [V2Style.mk "natural.water"
        (some (GeometryObj.mk (some true) (some "#2c2c2c") none none none))
        none]) := by decide

/-- C5: `extractColor` returns `null` exactly when the operation carries no
explicit (non-nullish) color; on an explicit color its result is the
spec's predicted value — the normalized color, the operation's own
lightness/saturation applied first when present, then the external
adjustment record, except that the external record is skipped when the
normalized base is pure black or white and the operation itself carries no
lightness/saturation. -/
theorem C5_extractColor_matches_claim (op : Styler) (A : Option HslAdj) :
    (extractColor op A = none ↔ fieldNonNullish op.color = false) ∧
    (fieldNonNullish op.color = true →
      extractColor op A = some (claimExtractColor op A)) := by
  cases hc : fieldNonNullish op.color with
  | false =>
    have hnone : extractColor op A = none := by
      unfold extractColor
      cases A with
      | none =>
        simp only [hc]
        cases h1 : (fieldDefined op.lightness || fieldDefined op.saturation) <;>
          simp [h1]
      | some a =>
        simp only [hc]
        cases h1 : (fieldDefined op.lightness || fieldDefined op.saturation) <;>
          cases h2 : (a.saturation.isSome || a.lightness.isSome) <;>
            simp [h1, h2]
    exact ⟨⟨fun _ => rfl, fun _ => hnone⟩, fun h => absurd h (by decide)⟩
  | true =>
    have hpos : extractColor op A = some (claimExtractColor op A) := by
      unfold extractColor claimExtractColor stylerCarriesHsl adjCarriesHsl
      cases A with
      | none =>
        simp only [hc]
        cases h1 : (fieldDefined op.lightness || fieldDefined op.saturation) <;>
          simp [h1]
      | some a =>
        simp only [hc]
        cases h1 : (fieldDefined op.lightness || fieldDefined op.saturation) <;>
          cases h2 : (a.saturation.isSome || a.lightness.isSome)
        · simp [h1, h2]
        · by_cases hb : normalizeHex (fieldValue op.color) = "#000000" <;>
            by_cases hw : normalizeHex (fieldValue op.color) = "#ffffff" <;>
              simp [h1, h2, hb, hw, PURE_BLACK, PURE_WHITE]
        · simp [h1, h2]
        · simp [h1, h2, PURE_BLACK, PURE_WHITE]
    refine ⟨⟨fun hn => ?_, fun hf => absurd hf (by decide)⟩, fun _ => hpos⟩
    rw [hpos] at hn; cases hn

/-! ### Association-list and insertion-set helper lemmas -/

/-- `List.lookup` on a cons cell as a plain conditional. -/
theorem lookup_cons {α : Type} (a k : String) (b : α)
    (rest : List (String × α)) :
    ((a, b) :: rest).lookup k = if k = a then some b else rest.lookup k := by
  by_cases h : k = a
  · subst h; simp [List.lookup]
  · have hb : (k == a) = false := by simp [h]
    simp [List.lookup, hb, h]

/-- Appending a differently-keyed entry does not change a lookup. -/
theorem lookup_append_single_ne {α : Type} (m : List (String × α))
    (k k' : String) (v : α) (h : k' ≠ k) :
    (m ++ [(k', v)]).lookup k = m.lookup k := by
  induction m with
  | nil =>
    rw [List.nil_append, lookup_cons, if_neg (fun hk => h hk.symm)]
  | cons p rest ih =>
    rcases p with ⟨a, b⟩
    rw [List.cons_append, lookup_cons, lookup_cons, ih]

/-- Appending the key's entry to a map without it finds the new value. -/
theorem lookup_append_single_none {α : Type} (m : List (String × α))
    (k : String) (v : α) (h : m.lookup k = none) :
    (m ++ [(k, v)]).lookup k = some v := by
  induction m with
  | nil => simp [lookup_cons]
  | cons p rest ih =>
    rcases p with ⟨a, b⟩
    by_cases hab : k = a
    · rw [lookup_cons, if_pos hab] at h
      cases h
    · rw [lookup_cons, if_neg hab] at h
      rw [List.cons_append, lookup_cons, if_neg hab]
      exact ih h

/-- Replacing the entries of one key does not change another key's lookup. -/
theorem lookup_map_replace_ne {α : Type} (m : List (String × α))
    (k k' : String) (v : α) (h : k' ≠ k) :
    (m.map fun p => if p.1 = k' then (k', v) else p).lookup k = m.lookup k := by
  induction m with
  | nil => rfl
  | cons p rest ih =>
    rcases p with ⟨a, b⟩
    by_cases hak : a = k'
    · rw [List.map_cons, if_pos hak]
      rw [lookup_cons, lookup_cons, if_neg (fun hk => h hk.symm),
        if_neg (fun hk => h (hak ▸ hk).symm), ih]
    · rw [List.map_cons, if_neg hak]
      rw [lookup_cons, lookup_cons, ih]

/-- Replacing the entries of a present key makes its lookup the new value. -/
theorem lookup_map_replace_self {α : Type} (m : List (String × α))
    (k : String) (v : α) (h : (m.lookup k).isSome = true) :
    (m.map fun p => if p.1 = k then (k, v) else p).lookup k = some v := by
  induction m with
  | nil => simp [List.lookup] at h
  | cons p rest ih =>
    rcases p with ⟨a, b⟩
    by_cases hak : a = k
    · rw [List.map_cons, if_pos hak, lookup_cons, if_pos rfl]
    · rw [List.map_cons, if_neg hak, lookup_cons,
        if_neg (fun hk => hak hk.symm)]
      rw [lookup_cons, if_neg (fun hk => hak hk.symm)] at h
      exact ih h

/-- `setAssoc` leaves other keys' lookups unchanged. -/
theorem lookup_setAssoc_ne {α : Type} (m : List (String × α))
    (k k' : String) (v : α) (h : k' ≠ k) :
    (setAssoc m k' v).lookup k = m.lookup k := by
  unfold setAssoc
  split
  · exact lookup_map_replace_ne m k k' v h
  · exact lookup_append_single_ne m k k' v h

/-- `setAssoc` makes the written key's lookup the written value. -/
theorem lookup_setAssoc_self {α : Type} (m : List (String × α))
    (k : String) (v : α) : (setAssoc m k v).lookup k = some v := by
  unfold setAssoc
  split
  · exact lookup_map_replace_self m k v (by assumption)
  · refine lookup_append_single_none m k v ?_
    rename_i hns
    cases hl : m.lookup k with
    | none => rfl
    | some w => rw [hl] at hns; simp at hns

/-- A successful lookup exhibits a member of the list. -/
theorem mem_of_lookup {α : Type} (m : List (String × α)) (k : String)
    (v : α) (h : m.lookup k = some v) : (k, v) ∈ m := by
  induction m with
  | nil => simp [List.lookup] at h
  | cons p rest ih =>
    rcases p with ⟨a, b⟩
    by_cases hab : k = a
    · subst hab
      rw [lookup_cons, if_pos rfl] at h
      cases h
      simp
    · rw [lookup_cons, if_neg hab] at h
      exact List.mem_cons_of_mem _ (ih h)

/-- `getOrCreateStyle` leaves other keys' lookups unchanged. -/
theorem lookup_getOrCreate_ne (m : List (String × V2Style)) (x id : String)
    (h : x ≠ id) : ((getOrCreateStyle m x).1).lookup id = m.lookup id := by
  unfold getOrCreateStyle
  cases hl : m.lookup x with
  | some s => rfl
  | none => exact lookup_append_single_ne m id x _ h

/-- The added element is in the insertion-set. -/
theorem mem_addIfAbsent_self (l : List String) (x : String) :
    x ∈ addIfAbsent l x := by
  unfold addIfAbsent
  split
  · assumption
  · simp

/-- Insertion preserves membership. -/
theorem mem_addIfAbsent_mono (l : List String) (x y : String) (h : y ∈ l) :
    y ∈ addIfAbsent l x := by
  unfold addIfAbsent
  split
  · exact h
  · simp [h]

/-- Insertion preserves distinctness. -/
theorem addIfAbsent_nodup (l : List String) (x : String) (h : l.Nodup) :
    (addIfAbsent l x).Nodup := by
  unfold addIfAbsent
  split
  · exact h
  · rename_i hx
    simp [List.nodup_append, h, hx]

/-- Folded insertion preserves distinctness. -/
theorem foldl_addIfAbsent_nodup (xs : List String) : ∀ l, l.Nodup →
    (xs.foldl addIfAbsent l).Nodup := by
  induction xs with
  | nil => intro l h; exact h
  | cons x xs ih => intro l h; exact ih _ (addIfAbsent_nodup l x h)

/-- Folded insertion preserves membership in the accumulator. -/
theorem mem_foldl_addIfAbsent_left (xs : List String) : ∀ l y, y ∈ l →
    y ∈ xs.foldl addIfAbsent l := by
  induction xs with
  | nil => intro l y h; exact h
  | cons x xs ih => intro l y h; exact ih _ y (mem_addIfAbsent_mono l x y h)

/-- Every folded-in element is in the result. -/
theorem mem_foldl_addIfAbsent_arg (xs : List String) : ∀ l y, y ∈ xs →
    y ∈ xs.foldl addIfAbsent l := by
  induction xs with
  | nil => intro l y h; simp at h
  | cons x xs ih =>
    intro l y h
    rcases List.mem_cons.mp h with rfl | h
    · exact mem_foldl_addIfAbsent_left xs _ y (mem_addIfAbsent_self l y)
    · exact ih _ y h

/-- Two visibility-ledger keys with the same element suffix and different
ids differ. -/
theorem ledger_key_ne (a b e : String) (h : a ≠ b) :
    a ++ ":" ++ e ≠ b ++ ":" ++ e := by
  intro heq
  apply h
  have hd := congrArg String.data heq
  have hc : (":" : String).data = [':'] := rfl
  simp only [String.data_append, hc] at hd
  have h1 : a.data ++ [':'] = b.data ++ [':'] := List.append_cancel_right hd
  exact String.ext (List.append_cancel_right h1)

/-- C7: `expandTargetIds` on a falsy or `"all"` feature type returns the
whole known id vocabulary; on a feature type that maps to a v2 id it
returns a duplicate-free list containing that id and every vocabulary id
having it as a dot-prefix. -/
theorem C7_expandTargetIds (ft : JSPrim) :
    ((!ft.truthy || ft == .str "all") = true →
      expandTargetIds ft = getAllV2Ids) ∧
    (∀ id, getV2Id ft = some id →
      ((expandTargetIds ft).Nodup ∧ id ∈ expandTargetIds ft ∧
        ∀ fid ∈ getAllV2Ids, jsStartsWith fid (id ++ ".") = true →
          fid ∈ expandTargetIds ft)) := by
  constructor
  · intro h
    unfold expandTargetIds
    rw [if_pos h]
  · intro id hmap
    have hcond : (!ft.truthy || ft == .str "all") = false := by
      cases ft with
      | null => simp [getV2Id, JSPrim.truthy] at hmap
      | undefined => simp [getV2Id, JSPrim.truthy] at hmap
      | bool b => simp [getV2Id] at hmap
      | num q => simp [getV2Id] at hmap
      | str s =>
        by_cases hs : s = "all"
        · subst hs; simp [getV2Id, JSPrim.truthy] at hmap
        · by_cases hs0 : s = ""
          · subst hs0; simp [getV2Id, JSPrim.truthy] at hmap
          · simp [JSPrim.truthy, hs0, beq_iff_eq, hs]
    have hnil : addIfAbsent [] id = [id] := by simp [addIfAbsent]
    have hexp : expandTargetIds ft =
        if getAllV2Ids.any (fun fid => jsStartsWith fid (id ++ ".")) then
          (getChildFeatureIds id).foldl addIfAbsent [id]
        else [id] := by
      unfold expandTargetIds
      rw [if_neg (by simp [hcond])]
      simp only [hmap, List.foldl_cons, List.foldl_nil]
      rw [hnil]
    rw [hexp]
    by_cases hcat :
        getAllV2Ids.any (fun fid => jsStartsWith fid (id ++ ".")) = true
    · rw [if_pos hcat]
      refine ⟨foldl_addIfAbsent_nodup _ [id] (by simp),
        mem_foldl_addIfAbsent_left _ [id] id (by simp), ?_⟩
      intro fid hfid hpre
      apply mem_foldl_addIfAbsent_arg
      exact List.mem_cons_of_mem _ (List.mem_filter.mpr ⟨hfid, hpre⟩)
    · rw [if_neg hcat]
      exact ⟨by simp, by simp, fun fid hfid hpre =>
        absurd (List.any_eq_true.mpr ⟨fid, hfid, hpre⟩) hcat⟩

/-! ### The variant scan as a fold over the collected colors -/

/-- One rule's styler scan, started from any accumulator, adds the
lightness values and the count of that rule's truthy colors (primitive
elements are skipped by the `styler?.color` guard). -/
theorem stylerScan_foldl (stylers : List StylerVal) : ∀ (a : Q) (n : ℕ),
    stylers.foldl
      (fun acc styler =>
        match styler with
        | .obj s =>
          if (fieldValue s.color).truthy then
            (acc.1 + (hexToHsl (.str (normalizeHex
              (fieldValue s.color)))).l, acc.2 + 1)
          else acc
        | .prim _ => acc)
      (a, n) =
    (((stylers.filter stylerHasColor).map fun s =>
        normalizeHex (stylerColorValue s)).foldl
          (fun x c => x + lightnessOf c) a,
      n + ((stylers.filter stylerHasColor).map fun s =>
        normalizeHex (stylerColorValue s)).length) := by
  induction stylers with
  | nil => intro a n; simp
  | cons sv ss ih =>
    intro a n
    cases sv with
    | obj s =>
      by_cases ht : (fieldValue s.color).truthy = true
      · simp only [List.foldl_cons, List.filter_cons, stylerHasColor, ht,
          if_true, List.map_cons, List.length_cons]
        rw [ih]
        simp [lightnessOf, stylerColorValue, Prod.ext_iff]
        omega
      · simp only [List.foldl_cons, List.filter_cons, stylerHasColor, ht,
          Bool.false_eq_true, if_false]
        exact ih a n
    | prim p =>
      simp only [List.foldl_cons, List.filter_cons, stylerHasColor,
        Bool.false_eq_true, if_false]
      exact ih a n

/-- The whole variant scan, started from any accumulator, adds the
lightness values and the count of all collected colors. -/
theorem variantTotals_foldl (rules : List RuleVal) : ∀ (a : Q) (n : ℕ),
    rules.foldl
      (fun acc style =>
        match ruleStylersArray style with
        | none => acc
        | some stylers =>
          stylers.foldl
            (fun acc styler =>
              match styler with
              | .obj s =>
                if (fieldValue s.color).truthy then
                  (acc.1 + (hexToHsl (.str (normalizeHex
                    (fieldValue s.color)))).l, acc.2 + 1)
                else acc
              | .prim _ => acc)
            acc)
      (a, n) =
    ((collectStylerColors rules).foldl (fun x c => x + lightnessOf c) a,
      n + (collectStylerColors rules).length) := by
  induction rules with
  | nil => intro a n; simp [collectStylerColors]
  | cons r rest ih =>
    intro a n
    rw [List.foldl_cons]
    cases hr : ruleStylersArray r with
    | none =>
      simp only [hr]
      rw [ih]
      simp [collectStylerColors, hr]
    | some stylers =>
      simp only [hr]
      rw [stylerScan_foldl, ih]
      simp [collectStylerColors, hr, List.foldl_append, Prod.ext_iff]
      omega

/-- `variantTotals` is the lightness sum and the count of the collected
colors. -/
theorem variantTotals_eq (rules : List RuleVal) :
    variantTotals rules =
      (lightnessSum (collectStylerColors rules),
        (collectStylerColors rules).length) := by
  unfold variantTotals
  rw [variantTotals_foldl rules 0 0]
  simp [lightnessSum]

/-- `detectVariant` in terms of the collected colors. -/
theorem detectVariant_characterization (rules : List RuleVal) :
    detectVariant rules =
      if collectStylerColors rules ≠ [] ∧
          lightnessSum (collectStylerColors rules) /
            Q.ofNat (collectStylerColors rules).length < 50
        then "dark" else "light" := by
  unfold detectVariant
  by_cases hnil : rules = []
  · subst hnil
    simp [collectStylerColors]
  · rw [if_neg hnil]
    simp only [variantTotals_eq]
    by_cases hz : (collectStylerColors rules).length = 0
    · have hcs : collectStylerColors rules = [] := by
        cases hcc : collectStylerColors rules with
        | nil => rfl
        | cons c cs => rw [hcc] at hz; simp at hz
      simp [hz, hcs]
    · have hcs : collectStylerColors rules ≠ [] := by
        intro hc; exact hz (by simp [hc])
      rw [if_neg hz]
      by_cases hlt : lightnessSum (collectStylerColors rules) /
          Q.ofNat (collectStylerColors rules).length < LIGHTNESS_THRESHOLD
      · rw [if_pos hlt,
          if_pos ⟨hcs, by simpa [LIGHTNESS_THRESHOLD] using hlt⟩]
      · rw [if_neg hlt,
          if_neg (fun hc => hlt (by simpa [LIGHTNESS_THRESHOLD] using hc.2))]

/-- C9: the variant of a successful conversion is `"dark"` exactly when at
least one styler across all rules carries a truthy color value and the
average HSL lightness of the normalized colors is strictly below 50, and
`"light"` in every other case, including when no colors are found. -/
theorem C9_variant_characterization (pow : Q → Q → Q)
    (parse : String → Option JSONValue) (input : V1Input)
    (rules : List RuleVal) (out : V2Output)
    (hin : parsedInput parse input = some (.arr rules))
    (h : convertV1ToV2 pow parse input = .ok out) :
    out.variant =
      if collectStylerColors rules ≠ [] ∧
          lightnessSum (collectStylerColors rules) /
            Q.ofNat (collectStylerColors rules).length < 50
        then "dark" else "light" := by
  have harr : convertArray pow rules = .ok out := by
    cases input with
    | str s =>
      simp only [parsedInput] at hin
      simp only [convertV1ToV2, hin] at h
      exact h
    | val v =>
      simp only [parsedInput] at hin
      cases hin
      exact h
  rw [← detectVariant_characterization]
  exact convertArray_ok_variant pow rules out harr

/-- The C9 characterization at a one-rule input carrying a single dark
water color. -/
theorem C9_variant_witness :
    (V2Output.mk "dark" [V2Style.mk "natural.water"
      (some (GeometryObj.mk (some true) (some "#2c2c2c") none none none))
      none]).variant =
      if collectStylerColors [.obj (V1Rule.mk (.str "water")
            (.str "geometry.fill")
            (.arr [.obj { color := some (.str "#2c2c2c") }]))] ≠ [] ∧
          lightnessSum (collectStylerColors [.obj (V1Rule.mk (.str "water")
            (.str "geometry.fill")
            (.arr [.obj { color := some (.str "#2c2c2c") }]))]) /
            Q.ofNat (collectStylerColors [.obj (V1Rule.mk (.str "water")
              (.str "geometry.fill")
              (.arr [.obj { color := some (.str "#2c2c2c") }]))]).length < 50
        then "dark" else "light" :=
  C9_variant_characterization (fun _ _ => 0) (fun _ => none)
    (.val (.arr [.obj (V1Rule.mk (.str "water") (.str "geometry.fill")
      (.arr [.obj { color := some (.str "#2c2c2c") }]))]))
    [.obj (V1Rule.mk (.str "water") (.str "geometry.fill")
      (.arr [.obj { color := some (.str "#2c2c2c") }]))]
    (V2Output.mk "dark" [V2Style.mk "natural.water"
      (some (GeometryObj.mk (some true) (some "#2c2c2c") none none none))
      none])
    (by decide) (by decide)

/-! ### Visibility-precedence machinery -/

/-- `handleGeneralVisibility` processes the head target first. -/
theorem hgv_cons (x : String) (xs : List String) (visible : Bool)
    (e : JSPrim) (m : List (String × V2Style)) (ft : String)
    (vm : List (String × String)) :
    handleGeneralVisibility (x :: xs) visible e m ft vm =
      handleGeneralVisibility xs visible e
        (handleGeneralVisibility [x] visible e m ft vm).1 ft
        (handleGeneralVisibility [x] visible e m ft vm).2 := rfl

/-- A target already covered by a more specific rule is skipped. -/
theorem hgv_skip (x : String) (visible : Bool) (e : JSPrim)
    (m : List (String × V2Style)) (ft : String)
    (vm : List (String × String))
    (h : hasMoreSpecificVisibility ft e x vm = true) :
    handleGeneralVisibility [x] visible e m ft vm = (m, vm) := by
  unfold handleGeneralVisibility
  simp only [List.foldl_cons, List.foldl_nil, h, if_true]

/-- Processing one other target changes neither the given id's style entry
nor its ledger key. -/
theorem hgv_step_ne (x id : String) (visible : Bool) (e : JSPrim)
    (m : List (String × V2Style)) (ft : String)
    (vm : List (String × String)) (hne : x ≠ id) :
    ((handleGeneralVisibility [x] visible e m ft vm).1.lookup id =
      m.lookup id) ∧
    ((handleGeneralVisibility [x] visible e m ft vm).2.lookup
        (id ++ ":" ++ elemKeyStr e) =
      vm.lookup (id ++ ":" ++ elemKeyStr e)) := by
  cases hms : hasMoreSpecificVisibility ft e x vm with
  | true => rw [hgv_skip x visible e m ft vm hms]; exact ⟨rfl, rfl⟩
  | false =>
    unfold handleGeneralVisibility
    simp only [List.foldl_cons, List.foldl_nil, hms, Bool.false_eq_true,
      if_false]
    rcases hg : getOrCreateStyle m x with ⟨m₁, style⟩
    simp only [hg]
    have hm₁ : m₁.lookup id = m.lookup id := by
      rw [← lookup_getOrCreate_ne m x id hne, hg]
    have hkey : x ++ ":" ++ elemKeyStr e ≠ id ++ ":" ++ elemKeyStr e :=
      ledger_key_ne x id (elemKeyStr e) hne
    refine ⟨?_, ?_⟩ <;> (repeat' split) <;>
      simp [lookup_setAssoc_ne, hm₁, hkey, hne]

/-- A ledger entry for the exact id/element combination written by a
strictly more specific feature type makes the skip test true. -/
theorem hasMoreSpecific_of_ledger (ft ft₀ : String) (e : JSPrim)
    (id : String) (vm : List (String × String)) (hft : ft ≠ "")
    (helem : e.isNullish = true ∨ ∃ s, e = .str s)
    (hvm : vm.lookup (id ++ ":" ++ elemKeyStr e) = some ft₀)
    (hdesc : jsStartsWith ft₀ (ft ++ ".") = true) :
    hasMoreSpecificVisibility ft e id vm = true := by
  unfold hasMoreSpecificVisibility
  rw [if_neg hft, List.any_eq_true]
  refine ⟨(id ++ ":" ++ elemKeyStr e, ft₀), mem_of_lookup vm _ _ hvm, ?_⟩
  have hpre : jsStartsWith (id ++ ":" ++ elemKeyStr e) (id ++ ":") = true := by
    simp only [jsStartsWith, String.data_append,
      List.isPrefixOf_iff_prefix]
    exact List.prefix_append _ _
  have hdrop : jsDropChars (id ++ ":" ++ elemKeyStr e) (jsLength id + 1) =
      elemKeyStr e := by
    have hc : (":" : String).data = [':'] := rfl
    simp only [jsDropChars, jsLength, String.data_append, hc]
    rw [List.drop_left' (by simp)]
  simp only [hpre, Bool.not_true, Bool.false_eq_true, if_false, hdesc,
    hdrop]
  rcases helem with hnul | ⟨s, rfl⟩
  · cases e with
    | null => simp [JSPrim.truthy]
    | undefined => simp [JSPrim.truthy]
    | bool b => simp [JSPrim.isNullish] at hnul
    | num q => simp [JSPrim.isNullish] at hnul
    | str s => simp [JSPrim.isNullish] at hnul
  · by_cases hs0 : s = ""
    · subst hs0; simp [JSPrim.truthy]
    · by_cases hsall : s = "all"
      · subst hsall; simp [JSPrim.truthy]
      · simp [JSPrim.truthy, hs0, beq_iff_eq, hsall, elemKeyStr]

/-- C6: once the visibility ledger records, for a feature id and
element-type combination, a value written by a strictly more specific
legacy feature type, running `handleGeneralVisibility` for the more
general feature type leaves both that id's style entry and that ledger
record unchanged, whatever the target list. -/
theorem C6_more_specific_visibility_wins (targetIds : List String)
    (visible : Bool) (e : JSPrim) (m : List (String × V2Style))
    (ft ft₀ : String) (vm : List (String × String)) (id : String)
    (hft : ft ≠ "")
    (helem : e.isNullish = true ∨ ∃ s, e = .str s)
    (hvm : vm.lookup (id ++ ":" ++ elemKeyStr e) = some ft₀)
    (hdesc : jsStartsWith ft₀ (ft ++ ".") = true) :
    ((handleGeneralVisibility targetIds visible e m ft vm).1.lookup id =
      m.lookup id) ∧
    ((handleGeneralVisibility targetIds visible e m ft vm).2.lookup
        (id ++ ":" ++ elemKeyStr e) = some ft₀) := by
  induction targetIds generalizing m vm with
  | nil => exact ⟨rfl, hvm⟩
  | cons x xs ih =>
    rw [hgv_cons]
    by_cases hx : x = id
    · subst hx
      rw [hgv_skip x visible e m ft vm
        (hasMoreSpecific_of_ledger ft ft₀ e x vm hft helem hvm hdesc)]
      exact ih m vm hvm
    · have hstep := hgv_step_ne x id visible e m ft vm hx
      have h1 := ih (handleGeneralVisibility [x] visible e m ft vm).1
        (handleGeneralVisibility [x] visible e m ft vm).2
        (by rw [hstep.2]; exact hvm)
      exact ⟨by rw [h1.1, hstep.1], h1.2⟩

/-- The C6 precedence skip at a concrete ledger: a `road.highway` label
visibility already recorded for `infrastructure.road` survives a later
general `road` rule. -/
theorem C6_precedence_witness :
    ((handleGeneralVisibility ["infrastructure.road"] false (.str "labels")
        [] "road"
        [("infrastructure.road:labels", "road.highway")]).1.lookup
      "infrastructure.road" =
      ([] : List (String × V2Style)).lookup "infrastructure.road") ∧
    ((handleGeneralVisibility ["infrastructure.road"] false (.str "labels")
        [] "road"
        [("infrastructure.road:labels", "road.highway")]).2.lookup
      ("infrastructure.road" ++ ":" ++ elemKeyStr (.str "labels")) =
      some "road.highway") :=
  C6_more_specific_visibility_wins ["infrastructure.road"] false
    (.str "labels") [] "road" "road.highway"
    [("infrastructure.road:labels", "road.highway")] "infrastructure.road"
    (by decide) (Or.inr ⟨"labels", rfl⟩) (by decide) (by decide)

/-! ### Icon-suppression machinery -/

/-- `handleLabelsIconVisibility` processes the head target first. -/
theorem hliv_cons (x : String) (xs : List String) (visible : Bool)
    (m : List (String × V2Style)) (off : List String) :
    handleLabelsIconVisibility (x :: xs) visible m off =
      handleLabelsIconVisibility xs visible
        (handleLabelsIconVisibility [x] visible m off).1
        (handleLabelsIconVisibility [x] visible m off).2 := rfl

/-- With visibility `off`, one step never removes suppression entries. -/
theorem hliv_step_mem (x : String) (m : List (String × V2Style))
    (off : List String) (y : String) (h : y ∈ off) :
    y ∈ (handleLabelsIconVisibility [x] false m off).2 := by
  unfold handleLabelsIconVisibility
  simp only [List.foldl_cons, List.foldl_nil]
  rcases hg : getOrCreateStyle m x with ⟨m₁, style⟩
  simp only [hg]
  (repeat' split) <;> first
    | (simp [h, mem_addIfAbsent_mono]; done)
    | simp_all

/-- One step for a different target does not change the id's style entry. -/
theorem hliv_step_lookup_ne (x id : String) (m : List (String × V2Style))
    (off : List String) (hne : x ≠ id) :
    (handleLabelsIconVisibility [x] false m off).1.lookup id =
      m.lookup id := by
  unfold handleLabelsIconVisibility
  simp only [List.foldl_cons, List.foldl_nil]
  rcases hg : getOrCreateStyle m x with ⟨m₁, style⟩
  simp only [hg]
  have hm₁ : m₁.lookup id = m.lookup id := by
    rw [← lookup_getOrCreate_ne m x id hne, hg]
  (repeat' split) <;> simp [lookup_setAssoc_ne, hm₁, hne]

/-- The step at the suppressed id itself: the id is marked suppressed, its
pin fill color ends deleted, and its label visibility is untouched. -/
theorem hliv_step_self (id : String) (m : List (String × V2Style))
    (off : List String) (hlab : supportsLabel id = true)
    (hshield : isIconShieldFeature id = false)
    (hpin : isValidLabelProperty id "pinFillColor" = true) :
    (id ∈ (handleLabelsIconVisibility [id] false m off).2) ∧
    (∀ style l,
      (handleLabelsIconVisibility [id] false m off).1.lookup id =
        some style → style.label = some l → l.pinFillColor = none) ∧
    (((handleLabelsIconVisibility [id] false m off).1.lookup id).map
        (fun s => s.label.map LabelObj.visible) =
      (m.lookup id).map (fun s => s.label.map LabelObj.visible)) := by
  unfold handleLabelsIconVisibility
  simp only [List.foldl_cons, List.foldl_nil, hlab, hshield, hpin,
    Bool.not_true, Bool.false_eq_true, if_false, if_true, Bool.not_false]
  cases hl : m.lookup id with
  | none =>
    dsimp only
    refine ⟨mem_addIfAbsent_self off id,
      (fun style' l' hs hsl => ?_), ?_⟩
    · rw [hl] at hs
      cases hs
    · rw [hl]
  | some style =>
    dsimp only
    cases hlab2 : style.label with
    | none =>
      dsimp only
      refine ⟨mem_addIfAbsent_self off id,
        (fun style' l' hs hsl => ?_), ?_⟩
      · rw [hl] at hs
        cases hs
        rw [hlab2] at hsl
        cases hsl
      · rw [hl]
    | some l =>
      dsimp only
      cases hp : l.pinFillColor with
      | none =>
        rw [if_neg (by simp [hp])]
        refine ⟨mem_addIfAbsent_self off id,
          (fun style' l' hs hsl => ?_), ?_⟩
        · rw [hl] at hs
          cases hs
          rw [hlab2] at hsl
          cases hsl
          exact hp
        · rw [hl]
      | some c =>
        rw [if_pos (by simp [hp])]
        refine ⟨mem_addIfAbsent_self off id,
          (fun style' l' hs hsl => ?_), ?_⟩
        · rw [lookup_setAssoc_self] at hs
          cases hs
          simp at hsl
          subst hsl
          rfl
        · rw [lookup_setAssoc_self]
          simp [hlab2]

/-- C8: a `labels.icon` visibility-off rule, on a target id that supports
label, is not an icon/shield feature, and legalizes `pinFillColor`, marks
the id icon-suppressed, ends with no `pinFillColor` on the id's label,
leaves the id's `label.visible` untouched, and while an id is suppressed
`processLabelColor` refuses every further `pinFillColor` write. -/
theorem C8_labels_icon_suppression (targetIds : List String)
    (m : List (String × V2Style)) (off : List String) (id : String)
    (hmem : id ∈ targetIds) (hlab : supportsLabel id = true)
    (hshield : isIconShieldFeature id = false)
    (hpin : isValidLabelProperty id "pinFillColor" = true) :
    (id ∈ (handleLabelsIconVisibility targetIds false m off).2) ∧
    (∀ style l,
      (handleLabelsIconVisibility targetIds false m off).1.lookup id =
        some style → style.label = some l → l.pinFillColor = none) ∧
    (((handleLabelsIconVisibility targetIds false m off).1.lookup id).map
        (fun s => s.label.map LabelObj.visible) =
      (m.lookup id).map (fun s => s.label.map LabelObj.visible)) ∧
    (∀ (pw : Q → Q → Q) (ms : Styler) (st : V2Style) (ig hec hha : Bool)
        (off₂ : List String) (hm : List (String × HslAdj)), id ∈ off₂ →
      processLabelColor pw ms id "pinFillColor" st ig hec hha off₂ hm = st) := by
  have main : ∀ (ts : List String) (m₀ : List (String × V2Style))
      (off₀ : List String),
      (((handleLabelsIconVisibility ts false m₀ off₀).1.lookup id).map
          (fun s => s.label.map LabelObj.visible) =
        (m₀.lookup id).map (fun s => s.label.map LabelObj.visible)) ∧
      (∀ y, y ∈ off₀ →
        y ∈ (handleLabelsIconVisibility ts false m₀ off₀).2) ∧
      ((∀ style l, m₀.lookup id = some style → style.label = some l →
          l.pinFillColor = none) →
        ∀ style l,
          (handleLabelsIconVisibility ts false m₀ off₀).1.lookup id =
            some style → style.label = some l → l.pinFillColor = none) ∧
      (id ∈ ts →
        (id ∈ (handleLabelsIconVisibility ts false m₀ off₀).2 ∧
         ∀ style l,
           (handleLabelsIconVisibility ts false m₀ off₀).1.lookup id =
             some style → style.label = some l →
             l.pinFillColor = none)) := by
    intro ts
    induction ts with
    | nil =>
      intro m₀ off₀
      exact ⟨rfl, fun y hy => hy, fun hp0 => hp0, fun hmem0 => by simp at hmem0⟩
    | cons x xs ih =>
      intro m₀ off₀
      rw [hliv_cons]
      by_cases hx : x = id
      · subst hx
        obtain ⟨ha, hb, hc⟩ := hliv_step_self x m₀ off₀ hlab hshield hpin
        obtain ⟨ih1, ih2, ih3, ih4⟩ :=
          ih (handleLabelsIconVisibility [x] false m₀ off₀).1
            (handleLabelsIconVisibility [x] false m₀ off₀).2
        refine ⟨by rw [ih1, hc], fun y hy =>
          ih2 y (hliv_step_mem x m₀ off₀ y hy), fun _ => ih3 hb, fun _ =>
          ⟨ih2 x ha, ih3 hb⟩⟩
      · have hlk := hliv_step_lookup_ne x id m₀ off₀ hx
        obtain ⟨ih1, ih2, ih3, ih4⟩ :=
          ih (handleLabelsIconVisibility [x] false m₀ off₀).1
            (handleLabelsIconVisibility [x] false m₀ off₀).2
        refine ⟨by rw [ih1, hlk], fun y hy =>
          ih2 y (hliv_step_mem x m₀ off₀ y hy), ?_, ?_⟩
        · intro hp0
          exact ih3 (fun style l h1 h2 => hp0 style l (hlk ▸ h1) h2)
        · intro hmem2
          rcases List.mem_cons.mp hmem2 with heq | hmem3
          · exact absurd heq.symm hx
          · exact ih4 hmem3
  obtain ⟨h1, h2, h3, h4⟩ := main targetIds m off
  obtain ⟨ha, hb⟩ := h4 hmem
  refine ⟨ha, hb, h1, ?_⟩
  intro pw ms st ig hec hha off₂ hm hoff
  unfold processLabelColor
  rw [if_pos ⟨rfl, hoff⟩]

/-- The C8 suppression at a concrete `pointOfInterest` target. -/
theorem C8_icon_suppression_witness :
    ("pointOfInterest" ∈
      (handleLabelsIconVisibility ["pointOfInterest"] false [] []).2) ∧
    (∀ style l,
      (handleLabelsIconVisibility ["pointOfInterest"] false [] []).1.lookup
        "pointOfInterest" = some style → style.label = some l →
        l.pinFillColor = none) ∧
    (((handleLabelsIconVisibility ["pointOfInterest"] false [] []).1.lookup
        "pointOfInterest").map (fun s => s.label.map LabelObj.visible) =
      (([] : List (String × V2Style)).lookup "pointOfInterest").map
        (fun s => s.label.map LabelObj.visible)) ∧
    (∀ (pw : Q → Q → Q) (ms : Styler) (st : V2Style) (ig hec hha : Bool)
        (off₂ : List String) (hm : List (String × HslAdj)),
        "pointOfInterest" ∈ off₂ →
      processLabelColor pw ms "pointOfInterest" "pinFillColor" st ig hec hha
        off₂ hm = st) :=
  C8_labels_icon_suppression ["pointOfInterest"] [] [] "pointOfInterest"
    (by decide) (by decide) (by decide) (by decide)

end GMC
